import Mathlib

/-!
Verification development for the daobook/relax excerpt consisting of
`src/relax/backend/task_extraction.cc` (the Meta-Schedule task-extraction
pass over Relax modules) and `include/tvm/script/ir_builder/tir/ir.h`
(the declarative TIR IR-builder surface).

The first part shallowly embeds the task-extraction pass, which is fully
present in the source.  The second part embeds the TIR IR-builder frame
engine; its implementation files are not part of the excerpt (only the
interface header is), so the frame engine is modelled from the
specification, with each such definition marked `Modelled from the spec:`.
The dtype-cast helper family at the bottom of `ir.h` is present in full
(macro-expanded inline functions) and is embedded from the source.
-/

set_option autoImplicit false

namespace TaskExtraction

/-- A TIR PrimFunc as seen by the task extractor.  The extractor only ever
compares PrimFuncs by structural hash/equality (`StructuralHash` /
`StructuralEqual`), which identifies alpha-equivalent functions; this is
modelled by `structKey`, the identifier of the function's structural-equality
class.  `varNames` models name-hint data that structural equality ignores, so
two `PrimFunc`s can be distinct values yet structurally equal. -/
structure PrimFunc where
  varNames : List String
  structKey : Nat
deriving DecidableEq

/-- Structural equality on PrimFuncs (`StructuralEqual`): only the structural
class is compared, never the ignored name data. -/
def structEq (f g : PrimFunc) : Prop := f.structKey = g.structKey

/-- The first argument of a Relax call node: either an extern function or a
global variable referring to a function of the module
(`call->args[0].as<ExternFuncNode>()` / `Downcast<GlobalVar>(call->args[0])`). -/
inductive CallArg where
  | externFunc (name : String)
  | globalVar (name : String)
deriving DecidableEq

/-- A Relax call node, as far as `TaskExtractor::VisitExpr_(const CallNode*)`
inspects it: the operator name and the callee argument `args[0]`. -/
structure Call where
  op : String
  arg0 : CallArg
deriving DecidableEq

/-- A Relax function, abstracted to the sequence of call nodes that the
`ExprVisitor` traversal of its body encounters, in traversal order.  (The
bodies are in A-normal form, so call nodes are not nested inside each other
and the visitor meets each exactly once.) -/
structure RelaxFunction where
  callSites : List Call
deriving DecidableEq

/-- One entry of `mod->functions`: either a Relax function (visited by the
extractor) or a TIR PrimFunc (skipped by the loop, looked up by call sites). -/
inductive BaseFunc where
  | relaxFunc (f : RelaxFunction)
  | primFunc (f : PrimFunc)
deriving DecidableEq

/-- An IRModule: global names bound to functions, in module order. -/
structure IRModule where
  functions : List (String × BaseFunc)
deriving DecidableEq

/-- Name lookup in the module (`mod_->Lookup(global_var)`). -/
def IRModule.lookup (m : IRModule) (name : String) : Option BaseFunc :=
  (m.functions.find? (fun kv => kv.1 == name)).map (fun kv => kv.2)

/-- An extracted Meta-Schedule tuning task.  `mod` stands for the IRModule
produced by `parse_mod` from the PrimFunc of the first call site (modelled as
the PrimFunc itself), `dispatched` for the singleton dispatch list
`{tir_mod}`. -/
structure ExtractedTask where
  task_name : String
  mod : PrimFunc
  dispatched : List PrimFunc
  weight : Nat
deriving DecidableEq

/-- The mutable state of a `TaskExtractor`: the accumulated task list
`tasks_` and the structural map `func2task_` from PrimFunc to the index (in
`tasks_`) of the task it belongs to.  The C++ map stores a handle to the
task object shared with `tasks_`; mutating the weight through the handle is
modelled as updating `tasks_` at the stored index. -/
structure ExtractorState where
  tasks : List ExtractedTask
  func2task : List (PrimFunc × Nat)
deriving DecidableEq

/-- Lookup in `func2task_`, using structural equality on the keys
(`std::unordered_map<tir::PrimFunc, ..., StructuralHash, StructuralEqual>`). -/
def f2tFind : List (PrimFunc × Nat) → PrimFunc → Option Nat
  | [], _ => none
  | e :: es, f => if e.1.structKey = f.structKey then some e.2 else f2tFind es f

/-- Increment the weight of the task at index `i` (the effect of
`it->second->weight += 1;` through the shared handle). -/
def incWeightAt : List ExtractedTask → Nat → List ExtractedTask
  | [], _ => []
  | t :: ts, 0 => { t with weight := t.weight + 1 } :: ts
  | t :: ts, i + 1 => t :: incWeightAt ts i

/-- The deduplication/weighting step of `VisitExpr_` once the call has been
resolved to PrimFunc `f` referenced through global variable `gv`: either an
existing structurally-equal task's weight is bumped, or a fresh task of
weight 1 is appended to `tasks_` and registered in `func2task_`. -/
def visitFound (st : ExtractorState) (gv : String) (f : PrimFunc) :
    Option Nat → ExtractorState
  | some i => { st with tasks := incWeightAt st.tasks i }
  | none =>
    { tasks := st.tasks ++ [⟨gv, f, [f], 1⟩],
      func2task := st.func2task ++ [(f, st.tasks.length)] }

/-- Consult `func2task_` for a structurally equal PrimFunc and apply the
`visitFound` step to the result. -/
def visitPrim (st : ExtractorState) (gv : String) (f : PrimFunc) : ExtractorState :=
  visitFound st gv f (f2tFind st.func2task f)

/-- The `Downcast<tir::PrimFunc>(mod_->Lookup(global_var))` step: `none`
models the fatal `Downcast`/`Lookup` failure on an ill-formed module. -/
def visitLookup (st : ExtractorState) (gv : String) : Option BaseFunc → Option ExtractorState
  | some (BaseFunc.primFunc f) => some (visitPrim st gv f)
  | _ => none

/-- Dispatch of `VisitExpr_` on the callee argument `call->args[0]`: extern
functions are not extracted; a global variable is looked up in the module. -/
def visitCallTir (m : IRModule) (st : ExtractorState) : CallArg → Option ExtractorState
  | CallArg.externFunc _ => some st
  | CallArg.globalVar gv => visitLookup st gv (m.lookup gv)

/-- One step of `TaskExtractor::VisitExpr_(const CallNode*)`.  Calls whose
operator is not `relax.call_tir` are ignored (the early return); otherwise
the callee argument is dispatched on. -/
def visitCall (m : IRModule) (st : ExtractorState) (c : Call) : Option ExtractorState :=
  if c.op = "relax.call_tir" then visitCallTir m st c.arg0 else some st

/-- Visit all call sites of one Relax function, in traversal order; a fatal
visitor failure aborts the whole run. -/
def runCalls (m : IRModule) : ExtractorState → List Call → Option ExtractorState
  | st, [] => some st
  | st, c :: cs => (visitCall m st c).bind (fun st1 => runCalls m st1 cs)

/-- The loop of `ExtractTask`: go through each Relax function of the module,
skipping PrimFunc entries. -/
def runFuncs (m : IRModule) : ExtractorState → List (String × BaseFunc) → Option ExtractorState
  | st, [] => some st
  | st, (_, BaseFunc.relaxFunc f) :: rest =>
    (runCalls m st f.callSites).bind (fun st1 => runFuncs m st1 rest)
  | st, (_, BaseFunc.primFunc _) :: rest => runFuncs m st rest

/-- `TaskExtractor::ExtractTask`: run the visitor over every Relax function
of the module and return the accumulated task array. -/
def extractTask (m : IRModule) : Option (List ExtractedTask) :=
  (runFuncs m ⟨[], []⟩ m.functions).map (fun st => st.tasks)

/-- Helper for `resolveCall`: the result of looking the callee's global
variable up in the module. -/
def resolveLookup (gv : String) : Option BaseFunc → Option (String × PrimFunc)
  | some (BaseFunc.primFunc f) => some (gv, f)
  | _ => none

/-- Helper for `resolveCall`: dispatch on the callee argument. -/
def resolveArg (m : IRModule) : CallArg → Option (String × PrimFunc)
  | CallArg.externFunc _ => none
  | CallArg.globalVar gv => resolveLookup gv (m.lookup gv)

/-- Specification-side view of one call node: `some (gv, f)` when the call is
a `relax.call_tir` call whose callee is global variable `gv` resolving to
PrimFunc `f`; `none` when the extractor ignores the call. -/
def resolveCall (m : IRModule) (c : Call) : Option (String × PrimFunc) :=
  if c.op = "relax.call_tir" then resolveArg m c.arg0 else none

/-- All resolved call-TIR call sites of the functions `fs`, in traversal
order. -/
def sitesOfFuncs (m : IRModule) : List (String × BaseFunc) → List (String × PrimFunc)
  | [] => []
  | (_, BaseFunc.relaxFunc f) :: rest =>
    f.callSites.filterMap (resolveCall m) ++ sitesOfFuncs m rest
  | (_, BaseFunc.primFunc _) :: rest => sitesOfFuncs m rest

/-- All resolved call-TIR call sites of the module, in traversal order. -/
def callTirSites (m : IRModule) : List (String × PrimFunc) :=
  sitesOfFuncs m m.functions

/-- The structural-class keys of a list of call sites. -/
def keysOf (ps : List (String × PrimFunc)) : List Nat :=
  ps.map (fun p => p.2.structKey)

/-- The number of call sites in `ps` whose PrimFunc lies in structural class
`k`. -/
def countKey (k : Nat) : List (String × PrimFunc) → Nat
  | [] => 0
  | p :: ps => (if p.2.structKey = k then 1 else 0) + countKey k ps

/-- Helper for `firstSites`: keep only the call sites whose structural class
is seen neither in `seen` nor earlier in the list. -/
def firstSitesAux (seen : List Nat) : List (String × PrimFunc) → List (String × PrimFunc)
  | [] => []
  | p :: ps =>
    if p.2.structKey ∈ seen then firstSitesAux (p.2.structKey :: seen) ps
    else p :: firstSitesAux (p.2.structKey :: seen) ps

/-- The subsequence of call sites keeping, for each structural class, only
the first call site of that class. -/
def firstSites (ps : List (String × PrimFunc)) : List (String × PrimFunc) :=
  firstSitesAux [] ps

/-- Build the task list determined by a list of representative call sites and
a weight per structural class. -/
def withWeights (w : Nat → Nat) (qs : List (String × PrimFunc)) : List ExtractedTask :=
  qs.map (fun q => ⟨q.1, q.2, [q.2], w q.2.structKey⟩)

/-- Index of the first task of structural class `k` in a task list. -/
def idxOfKey : List ExtractedTask → Nat → Option Nat
  | [], _ => none
  | t :: ts, k =>
    if t.mod.structKey = k then some 0 else (idxOfKey ts k).map (fun i => i + 1)

/-- The extractor-state invariant: after the call sites `ps` have been
processed, the task list is exactly the first-encounter representatives
weighted by class counts, and `func2task_` lookup agrees with position in the
task list. -/
def Inv (st : ExtractorState) (ps : List (String × PrimFunc)) : Prop :=
  st.tasks = withWeights (fun k => countKey k ps) (firstSites ps)
  ∧ ∀ f : PrimFunc, f2tFind st.func2task f = idxOfKey st.tasks f.structKey

theorem countKey_append (k : Nat) (ps qs : List (String × PrimFunc)) :
    countKey k (ps ++ qs) = countKey k ps + countKey k qs := by
  induction ps with
  | nil => simp [countKey]
  | cons p ps ih => simp [countKey, ih, Nat.add_assoc]

theorem keysOf_cons (p : String × PrimFunc) (ps : List (String × PrimFunc)) :
    keysOf (p :: ps) = p.2.structKey :: keysOf ps := rfl

theorem countKey_eq_zero_of_not_mem {k : Nat} {ps : List (String × PrimFunc)}
    (h : k ∉ keysOf ps) : countKey k ps = 0 := by
  induction ps with
  | nil => rfl
  | cons p ps ih =>
    rw [keysOf_cons, List.mem_cons] at h
    push_neg at h
    have h1 : p.2.structKey ≠ k := fun hk => h.1 hk.symm
    simp [countKey, ih h.2, h1]

theorem firstSitesAux_cons (seen : List Nat) (p : String × PrimFunc)
    (ps : List (String × PrimFunc)) :
    firstSitesAux seen (p :: ps)
      = if p.2.structKey ∈ seen then firstSitesAux (p.2.structKey :: seen) ps
        else p :: firstSitesAux (p.2.structKey :: seen) ps := rfl

theorem firstSitesAux_append (seen : List Nat) (ps qs : List (String × PrimFunc)) :
    firstSitesAux seen (ps ++ qs)
      = firstSitesAux seen ps ++ firstSitesAux ((keysOf ps).reverse ++ seen) qs := by
  induction ps generalizing seen with
  | nil => simp [firstSitesAux, keysOf]
  | cons p ps ih =>
    by_cases h : p.2.structKey ∈ seen
    · simp only [List.cons_append, firstSitesAux_cons, if_pos h, ih, keysOf_cons,
        List.reverse_cons, List.append_assoc, List.singleton_append, List.nil_append]
    · simp only [List.cons_append, firstSitesAux_cons, if_neg h, ih, keysOf_cons,
        List.reverse_cons, List.append_assoc, List.singleton_append, List.nil_append]

theorem firstSitesAux_singleton (seen : List Nat) (p : String × PrimFunc) :
    firstSitesAux seen [p] = if p.2.structKey ∈ seen then [] else [p] := by
  by_cases h : p.2.structKey ∈ seen <;> simp [firstSitesAux_cons, firstSitesAux, h]

theorem mem_keys_firstSitesAux (k : Nat) (seen : List Nat) (ps : List (String × PrimFunc)) :
    k ∈ keysOf (firstSitesAux seen ps) ↔ (k ∉ seen ∧ k ∈ keysOf ps) := by
  induction ps generalizing seen with
  | nil => simp [firstSitesAux, keysOf]
  | cons p ps ih =>
    by_cases h : p.2.structKey ∈ seen
    · rw [firstSitesAux_cons, if_pos h, ih, keysOf_cons]
      constructor
      · rintro ⟨hk1, hk2⟩
        rw [List.mem_cons] at hk1
        push_neg at hk1
        exact ⟨hk1.2, List.mem_cons_of_mem _ hk2⟩
      · rintro ⟨hk1, hk2⟩
        rw [List.mem_cons] at hk2
        rcases hk2 with hk2 | hk2
        · exact absurd (hk2 ▸ h) hk1
        · refine ⟨?_, hk2⟩
          rw [List.mem_cons]
          push_neg
          exact ⟨fun hkk => hk1 (hkk ▸ h), hk1⟩
    · rw [firstSitesAux_cons, if_neg h, keysOf_cons, keysOf_cons, List.mem_cons, List.mem_cons,
        ih]
      constructor
      · rintro (hk | ⟨hk1, hk2⟩)
        · exact ⟨hk ▸ h, Or.inl hk⟩
        · rw [List.mem_cons] at hk1
          push_neg at hk1
          exact ⟨hk1.2, Or.inr hk2⟩
      · rintro ⟨hk1, hk | hk⟩
        · exact Or.inl hk
        · by_cases hkk : k = p.2.structKey
          · exact Or.inl hkk
          · refine Or.inr ⟨?_, hk⟩
            rw [List.mem_cons]
            push_neg
            exact ⟨hkk, hk1⟩

theorem nodup_keys_firstSitesAux (seen : List Nat) (ps : List (String × PrimFunc)) :
    (keysOf (firstSitesAux seen ps)).Nodup := by
  induction ps generalizing seen with
  | nil => simp [firstSitesAux, keysOf]
  | cons p ps ih =>
    by_cases h : p.2.structKey ∈ seen
    · rw [firstSitesAux_cons, if_pos h]
      exact ih _
    · rw [firstSitesAux_cons, if_neg h, keysOf_cons]
      refine List.nodup_cons.mpr ⟨?_, ih _⟩
      intro hmem
      exact ((mem_keys_firstSitesAux _ _ _).mp hmem).1 (List.mem_cons_self _ _)

theorem firstSites_append_of_mem {p : String × PrimFunc} {ps : List (String × PrimFunc)}
    (h : p.2.structKey ∈ keysOf ps) :
    firstSites (ps ++ [p]) = firstSites ps := by
  simp only [firstSites]
  rw [firstSitesAux_append, firstSitesAux_singleton]
  simp [h]

theorem firstSites_append_of_not_mem {p : String × PrimFunc} {ps : List (String × PrimFunc)}
    (h : p.2.structKey ∉ keysOf ps) :
    firstSites (ps ++ [p]) = firstSites ps ++ [p] := by
  simp only [firstSites]
  rw [firstSitesAux_append, firstSitesAux_singleton]
  simp [h]

theorem keys_withWeights (w : Nat → Nat) (qs : List (String × PrimFunc)) :
    (withWeights w qs).map (fun t => t.mod.structKey) = keysOf qs := by
  induction qs with
  | nil => rfl
  | cons q qs ih => simp [withWeights, keysOf, ih]

theorem withWeights_congr {w w' : Nat → Nat} {qs : List (String × PrimFunc)}
    (h : ∀ q ∈ qs, w q.2.structKey = w' q.2.structKey) :
    withWeights w qs = withWeights w' qs := by
  induction qs with
  | nil => rfl
  | cons q qs ih =>
    simp only [withWeights, List.map_cons] at ih ⊢
    rw [h q (List.mem_cons_self _ _), ih fun q hq => h q (List.mem_cons_of_mem _ hq)]

theorem idxOfKey_none_iff (ts : List ExtractedTask) (k : Nat) :
    idxOfKey ts k = none ↔ ∀ t ∈ ts, t.mod.structKey ≠ k := by
  induction ts with
  | nil => simp [idxOfKey]
  | cons t ts ih =>
    by_cases h : t.mod.structKey = k
    · simp [idxOfKey, h]
    · simp [idxOfKey, h, ih, Option.map_eq_none']

theorem idxOfKey_incWeightAt (ts : List ExtractedTask) (i : Nat) (k : Nat) :
    idxOfKey (incWeightAt ts i) k = idxOfKey ts k := by
  induction ts generalizing i with
  | nil => simp [incWeightAt]
  | cons t ts ih =>
    cases i with
    | zero => simp [incWeightAt, idxOfKey]
    | succ j => simp [incWeightAt, idxOfKey, ih]

theorem withWeights_cons (w : Nat → Nat) (q : String × PrimFunc)
    (qs : List (String × PrimFunc)) :
    withWeights w (q :: qs) = ⟨q.1, q.2, [q.2], w q.2.structKey⟩ :: withWeights w qs := rfl

theorem idxOfKey_cons (t : ExtractedTask) (ts : List ExtractedTask) (k : Nat) :
    idxOfKey (t :: ts) k
      = if t.mod.structKey = k then some 0 else (idxOfKey ts k).map (fun i => i + 1) := rfl

theorem incWeight_withWeights (qs : List (String × PrimFunc)) (w : Nat → Nat) (k : Nat)
    (hnd : (keysOf qs).Nodup) :
    ∀ i, idxOfKey (withWeights w qs) k = some i →
      incWeightAt (withWeights w qs) i
        = withWeights (fun j => if j = k then w j + 1 else w j) qs := by
  induction qs with
  | nil => intro i h; simp [withWeights, idxOfKey] at h
  | cons q qs ih =>
    intro i h
    rw [keysOf_cons, List.nodup_cons] at hnd
    rw [withWeights_cons, idxOfKey_cons] at h
    by_cases hq : q.2.structKey = k
    · rw [if_pos hq] at h
      have hi : i = 0 := by
        injection h with h
        omega
      subst hi
      rw [withWeights_cons, incWeightAt, withWeights_cons]
      have hkey : ∀ p ∈ qs, p.2.structKey ≠ k := by
        intro p hp hpk
        have hmem : p.2.structKey ∈ keysOf qs :=
          List.mem_map_of_mem (fun r => r.2.structKey) hp
        rw [hpk, ← hq] at hmem
        exact hnd.1 hmem
      have htail : withWeights w qs = withWeights (fun j => if j = k then w j + 1 else w j) qs :=
        withWeights_congr (fun p hp => by simp [hkey p hp])
      rw [← htail]
      simp [hq]
    · rw [if_neg hq] at h
      have hstep : ∃ j, idxOfKey (withWeights w qs) k = some j ∧ i = j + 1 := by
        rcases hj : idxOfKey (withWeights w qs) k with _ | j
        · rw [hj] at h; simp at h
        · rw [hj] at h
          simp at h
          exact ⟨j, rfl, h.symm⟩
      rcases hstep with ⟨j, hj, hij⟩
      subst hij
      rw [withWeights_cons, incWeightAt, withWeights_cons]
      rw [ih hnd.2 j hj]
      simp [hq]

theorem withWeights_append (w : Nat → Nat) (qs rs : List (String × PrimFunc)) :
    withWeights w (qs ++ rs) = withWeights w qs ++ withWeights w rs :=
  List.map_append _ _ _

theorem map_name_mod_withWeights (w : Nat → Nat) (qs : List (String × PrimFunc)) :
    (withWeights w qs).map (fun t => (t.task_name, t.mod)) = qs := by
  induction qs with
  | nil => rfl
  | cons q qs ih => simp only [withWeights, List.map_cons] at ih ⊢; rw [ih]

theorem f2tFind_append_of_some {es : List (PrimFunc × Nat)} {f : PrimFunc} {i : Nat}
    (h : f2tFind es f = some i) (l : List (PrimFunc × Nat)) :
    f2tFind (es ++ l) f = some i := by
  induction es with
  | nil => simp [f2tFind] at h
  | cons e es ih =>
    by_cases he : e.1.structKey = f.structKey
    · rw [f2tFind, if_pos he] at h
      rw [List.cons_append, f2tFind, if_pos he]
      exact h
    · rw [f2tFind, if_neg he] at h
      rw [List.cons_append, f2tFind, if_neg he]
      exact ih h

theorem f2tFind_append_of_none {es : List (PrimFunc × Nat)} {f : PrimFunc}
    (h : f2tFind es f = none) (l : List (PrimFunc × Nat)) :
    f2tFind (es ++ l) f = f2tFind l f := by
  induction es with
  | nil => rfl
  | cons e es ih =>
    by_cases he : e.1.structKey = f.structKey
    · rw [f2tFind, if_pos he] at h
      exact absurd h (by simp)
    · rw [f2tFind, if_neg he] at h
      rw [List.cons_append, f2tFind, if_neg he]
      exact ih h

theorem idxOfKey_append_of_some {ts : List ExtractedTask} {k : Nat} {i : Nat}
    (h : idxOfKey ts k = some i) (l : List ExtractedTask) :
    idxOfKey (ts ++ l) k = some i := by
  induction ts generalizing i with
  | nil => simp [idxOfKey] at h
  | cons t ts ih =>
    by_cases ht : t.mod.structKey = k
    · rw [idxOfKey_cons, if_pos ht] at h
      rw [List.cons_append, idxOfKey_cons, if_pos ht]
      exact h
    · rw [idxOfKey_cons, if_neg ht] at h
      rw [List.cons_append, idxOfKey_cons, if_neg ht]
      rcases hj : idxOfKey ts k with _ | j
      · rw [hj] at h; simp at h
      · rw [hj] at h
        simp only [Option.map_some'] at h
        rw [ih hj, ← h]
        rfl

theorem idxOfKey_append_of_none {ts : List ExtractedTask} {k : Nat}
    (h : idxOfKey ts k = none) (l : List ExtractedTask) :
    idxOfKey (ts ++ l) k = (idxOfKey l k).map (fun i => i + ts.length) := by
  induction ts with
  | nil =>
    rcases hj : idxOfKey l k with _ | j <;> simp [hj]
  | cons t ts ih =>
    by_cases ht : t.mod.structKey = k
    · rw [idxOfKey_cons, if_pos ht] at h
      exact absurd h (by simp)
    · rw [idxOfKey_cons, if_neg ht] at h
      have hts : idxOfKey ts k = none := by
        rcases hj : idxOfKey ts k with _ | j
        · rfl
        · rw [hj] at h; simp at h
      rw [List.cons_append, idxOfKey_cons, if_neg ht, ih hts]
      rcases hj : idxOfKey l k with _ | j
      · simp
      · simp [List.length_cons, Nat.add_assoc]

theorem mem_keys_of_idxOfKey_some {ts : List ExtractedTask} {k : Nat} {i : Nat}
    (h : idxOfKey ts k = some i) :
    k ∈ ts.map (fun t => t.mod.structKey) := by
  by_contra hmem
  have hall : ∀ t ∈ ts, t.mod.structKey ≠ k := by
    intro t ht hk
    exact hmem (by rw [← hk]; exact List.mem_map_of_mem _ ht)
  rw [(idxOfKey_none_iff ts k).mpr hall] at h
  exact Option.noConfusion h

theorem visitCall_of_resolve_none {m : IRModule} {c : Call} {st st' : ExtractorState}
    (hres : resolveCall m c = none) (h : visitCall m st c = some st') :
    st' = st := by
  rw [visitCall] at h
  rw [resolveCall] at hres
  by_cases hop : c.op = "relax.call_tir"
  · rw [if_pos hop] at h
    rw [if_pos hop] at hres
    rcases harg : c.arg0 with n | gv
    · rw [harg, visitCallTir] at h
      exact (Option.some.inj h).symm
    · rw [harg, visitCallTir] at h
      rw [harg, resolveArg] at hres
      rcases hlook : m.lookup gv with _ | bf
      · rw [hlook] at h
        simp [visitLookup] at h
      · rcases bf with f | f
        · rw [hlook] at h
          simp [visitLookup] at h
        · rw [hlook] at hres
          simp [resolveLookup] at hres
  · rw [if_neg hop] at h
    exact (Option.some.inj h).symm

theorem visitCall_inv_some {m : IRModule} {c : Call} {st st' : ExtractorState}
    {ps : List (String × PrimFunc)} {gv : String} {f : PrimFunc}
    (hres : resolveCall m c = some (gv, f)) (h : visitCall m st c = some st')
    (hinv : Inv st ps) :
    Inv st' (ps ++ [(gv, f)]) := by
  rw [visitCall] at h
  rw [resolveCall] at hres
  by_cases hop : c.op = "relax.call_tir"
  · rw [if_pos hop] at h
    rw [if_pos hop] at hres
    rcases harg : c.arg0 with n | gv0
    · rw [harg, resolveArg] at hres
      exact absurd hres (by simp)
    · rw [harg, resolveArg] at hres
      rw [harg, visitCallTir] at h
      rcases hlook : m.lookup gv0 with _ | bf
      · rw [hlook] at hres
        simp [resolveLookup] at hres
      · rcases bf with f0 | f0
        · rw [hlook] at hres
          simp [resolveLookup] at hres
        · rw [hlook, resolveLookup] at hres
          rw [hlook, visitLookup] at h
          have hgv : gv0 = gv := by
            have := Option.some.inj hres
            exact congrArg Prod.fst this
          have hf : f0 = f := by
            have := Option.some.inj hres
            exact congrArg Prod.snd this
          subst hgv; subst hf
          have hst0 : st' = visitPrim st gv0 f0 := (Option.some.inj h).symm
          rw [visitPrim] at hst0
          rcases hinv with ⟨htasks, hmap⟩
          rcases hfind : f2tFind st.func2task f0 with _ | i
          · -- fresh structural class: a new task of weight one is appended
            rw [hfind, visitFound] at hst0
            have hst' : st' = ⟨st.tasks ++ [⟨gv0, f0, [f0], 1⟩],
                st.func2task ++ [(f0, st.tasks.length)]⟩ := hst0
            have hidx : idxOfKey st.tasks f0.structKey = none := by
              rw [← hmap f0]; exact hfind
            have hnotmem : f0.structKey ∉ keysOf ps := by
              intro hmem
              have hmem1 : f0.structKey ∈ keysOf (firstSites ps) := by
                rw [firstSites]
                exact (mem_keys_firstSitesAux _ _ _).mpr ⟨by simp, hmem⟩
              have hmem2 : f0.structKey ∈ st.tasks.map (fun t => t.mod.structKey) := by
                rw [htasks, keys_withWeights]
                exact hmem1
              rw [idxOfKey_none_iff] at hidx
              rcases List.mem_map.mp hmem2 with ⟨t, ht, hk⟩
              exact hidx t ht hk
            constructor
            · rw [hst']
              show st.tasks ++ [⟨gv0, f0, [f0], 1⟩]
                = withWeights (fun k => countKey k (ps ++ [(gv0, f0)]))
                    (firstSites (ps ++ [(gv0, f0)]))
              rw [firstSites_append_of_not_mem hnotmem, withWeights_append, htasks]
              have hcong : withWeights (fun k => countKey k ps) (firstSites ps)
                  = withWeights (fun k => countKey k (ps ++ [(gv0, f0)])) (firstSites ps) := by
                refine withWeights_congr ?_
                intro q hq
                have hqk : q.2.structKey ≠ f0.structKey := by
                  intro hk
                  apply hnotmem
                  rw [← hk]
                  have := (mem_keys_firstSitesAux q.2.structKey [] ps).mp
                    (List.mem_map_of_mem (fun r => r.2.structKey) hq)
                  exact this.2
                have hqk2 : ¬ f0.structKey = q.2.structKey := fun hk => hqk hk.symm
                rw [countKey_append]
                simp [countKey, hqk2]
              rw [← hcong]
              congr 1
              show [(⟨gv0, f0, [f0], 1⟩ : ExtractedTask)]
                = [⟨gv0, f0, [f0], countKey f0.structKey (ps ++ [(gv0, f0)])⟩]
              rw [countKey_append, countKey_eq_zero_of_not_mem hnotmem]
              simp [countKey]
            · intro g
              rw [hst']
              show f2tFind (st.func2task ++ [(f0, st.tasks.length)]) g
                = idxOfKey (st.tasks ++ [⟨gv0, f0, [f0], 1⟩]) g.structKey
              rcases hg : f2tFind st.func2task g with _ | j
              · have hgidx : idxOfKey st.tasks g.structKey = none := by
                  rw [← hmap g]; exact hg
                rw [f2tFind_append_of_none hg, idxOfKey_append_of_none hgidx]
                by_cases hgk : f0.structKey = g.structKey
                · rw [f2tFind, if_pos hgk, idxOfKey_cons]
                  simp [hgk, idxOfKey, f2tFind]
                · rw [f2tFind, if_neg hgk, idxOfKey_cons]
                  simp [hgk, idxOfKey, f2tFind]
              · have hgidx : idxOfKey st.tasks g.structKey = some j := by
                  rw [← hmap g]; exact hg
                rw [f2tFind_append_of_some hg, idxOfKey_append_of_some hgidx]
          · -- known structural class: the stored task's weight is bumped
            rw [hfind, visitFound] at hst0
            have hst' : st' = { st with tasks := incWeightAt st.tasks i } := hst0
            have hidx : idxOfKey st.tasks f0.structKey = some i := by
              rw [← hmap f0]; exact hfind
            have hmem : f0.structKey ∈ keysOf ps := by
              have hmem2 := mem_keys_of_idxOfKey_some hidx
              rw [htasks, keys_withWeights, firstSites] at hmem2
              exact ((mem_keys_firstSitesAux _ _ _).mp hmem2).2
            have hfirst : firstSites (ps ++ [(gv0, f0)]) = firstSites ps :=
              firstSites_append_of_mem hmem
            constructor
            · rw [hst']
              show incWeightAt st.tasks i
                = withWeights (fun k => countKey k (ps ++ [(gv0, f0)]))
                    (firstSites (ps ++ [(gv0, f0)]))
              rw [hfirst, htasks]
              rw [htasks] at hidx
              rw [incWeight_withWeights (firstSites ps) _ f0.structKey
                (by rw [firstSites]; exact nodup_keys_firstSitesAux _ _) i hidx]
              refine withWeights_congr ?_
              intro q hq
              rw [countKey_append]
              by_cases hqk : q.2.structKey = f0.structKey
              · simp [hqk, countKey]
              · have hqk2 : ¬ f0.structKey = q.2.structKey := fun hk => hqk hk.symm
                simp [hqk, countKey, hqk2]
            · intro g
              rw [hst']
              show f2tFind st.func2task g = idxOfKey (incWeightAt st.tasks i) g.structKey
              rw [idxOfKey_incWeightAt]
              exact hmap g
  · rw [if_neg hop] at hres
    exact absurd hres (by simp)

theorem runCalls_inv (m : IRModule) :
    ∀ (cs : List Call) (st st' : ExtractorState) (ps : List (String × PrimFunc)),
      Inv st ps → runCalls m st cs = some st' →
      Inv st' (ps ++ cs.filterMap (resolveCall m)) := by
  intro cs
  induction cs with
  | nil =>
    intro st st' ps hinv h
    rw [runCalls] at h
    have hst : st = st' := Option.some.inj h
    subst hst
    simpa using hinv
  | cons c cs ih =>
    intro st st' ps hinv h
    rw [runCalls] at h
    rcases hv : visitCall m st c with _ | st1
    · rw [hv] at h
      exact absurd h (by simp)
    · rw [hv] at h
      rw [Option.some_bind] at h
      rcases hres : resolveCall m c with _ | p
      · have hst1 : st1 = st := visitCall_of_resolve_none hres hv
        subst hst1
        have := ih st1 st' ps hinv h
        simpa [List.filterMap_cons, hres] using this
      · rcases p with ⟨gv, f⟩
        have hinv1 : Inv st1 (ps ++ [(gv, f)]) := visitCall_inv_some hres hv hinv
        have := ih st1 st' (ps ++ [(gv, f)]) hinv1 h
        simpa [List.filterMap_cons, hres, List.append_assoc] using this

theorem runFuncs_inv (m : IRModule) :
    ∀ (fs : List (String × BaseFunc)) (st st' : ExtractorState)
      (ps : List (String × PrimFunc)),
      Inv st ps → runFuncs m st fs = some st' →
      Inv st' (ps ++ sitesOfFuncs m fs) := by
  intro fs
  induction fs with
  | nil =>
    intro st st' ps hinv h
    rw [runFuncs] at h
    have hst : st = st' := Option.some.inj h
    subst hst
    simpa [sitesOfFuncs] using hinv
  | cons kv fs ih =>
    intro st st' ps hinv h
    rcases kv with ⟨name, bf⟩
    rcases bf with f | f
    · rw [runFuncs] at h
      rcases hr : runCalls m st f.callSites with _ | st1
      · rw [hr] at h
        exact absurd h (by simp)
      · rw [hr] at h
        rw [Option.some_bind] at h
        have hinv1 := runCalls_inv m f.callSites st st1 ps hinv hr
        have := ih st1 st' _ hinv1 h
        simpa [sitesOfFuncs, List.append_assoc] using this
    · rw [runFuncs] at h
      have := ih st st' ps hinv h
      simpa [sitesOfFuncs] using this

/-- The bridge between the embedded extractor and its closed-form result:
whenever extraction succeeds, the task array lists the first-encounter
representative of each structural class, weighted by the total number of
resolved call-TIR call sites in that class. -/
theorem extractTask_eq (m : IRModule) (ts : List ExtractedTask)
    (h : extractTask m = some ts) :
    ts = withWeights (fun k => countKey k (callTirSites m)) (firstSites (callTirSites m)) := by
  rw [extractTask] at h
  rcases hr : runFuncs m ⟨[], []⟩ m.functions with _ | st
  · rw [hr] at h
    exact absurd h (by simp)
  · rw [hr] at h
    simp only [Option.map_some'] at h
    have hts : st.tasks = ts := Option.some.inj h
    have hinv0 : Inv ⟨[], []⟩ [] := ⟨rfl, fun f => rfl⟩
    have hinv := runFuncs_inv m m.functions ⟨[], []⟩ st [] hinv0 hr
    rw [callTirSites, ← hts]
    simpa using hinv.1

/-- C1: on every module for which extraction succeeds, the task-extraction
pass produces exactly one extracted task per structural-equality class of
PrimFuncs referenced by call-TIR call sites (the tasks' structural keys are
duplicate-free and are exactly the referenced classes), and the weight
recorded on each task equals the total number of call-TIR call sites, across
all Relax functions of the module, whose referenced PrimFunc lies in that
task's structural class. -/
theorem extract_one_task_per_class (m : IRModule) (ts : List ExtractedTask)
    (h : extractTask m = some ts) :
    (ts.map (fun t => t.mod.structKey)).Nodup
    ∧ (∀ k : Nat, k ∈ ts.map (fun t => t.mod.structKey) ↔ k ∈ keysOf (callTirSites m))
    ∧ ∀ t ∈ ts, t.weight = countKey t.mod.structKey (callTirSites m) := by
  have hb := extractTask_eq m ts h
  subst hb
  refine ⟨?_, ?_, ?_⟩
  · rw [keys_withWeights, firstSites]
    exact nodup_keys_firstSitesAux _ _
  · intro k
    rw [keys_withWeights, firstSites, mem_keys_firstSitesAux]
    simp
  · intro t ht
    rw [withWeights] at ht
    rcases List.mem_map.mp ht with ⟨q, hq, rfl⟩
    rfl

/-- C10: whenever extraction succeeds, the returned array lists the extracted
tasks in the order in which each distinct structural-equality class of
PrimFuncs is first encountered during the traversal of the module's Relax
functions (`firstSites` keeps exactly the first call site of each class, in
traversal order), and each task's name is the name hint of the global
variable through which that class's PrimFunc was first referenced. -/
theorem extract_order_and_names (m : IRModule) (ts : List ExtractedTask)
    (h : extractTask m = some ts) :
    ts.map (fun t => (t.task_name, t.mod)) = firstSites (callTirSites m) := by
  have hb := extractTask_eq m ts h
  subst hb
  exact map_name_mod_withWeights _ _

/-- C9: visiting a call node whose operator is not `relax.call_tir`, or whose
callee argument is an external function, returns the extractor state
entirely unchanged: no task is created, no weight is incremented, and the
function-to-task map is not modified. -/
theorem visit_non_calltir_unchanged (m : IRModule) (st : ExtractorState) (c : Call)
    (h : c.op ≠ "relax.call_tir" ∨ ∃ n, c.arg0 = CallArg.externFunc n) :
    visitCall m st c = some st := by
  rcases h with h | ⟨n, h⟩
  · rw [visitCall, if_neg h]
  · rw [visitCall, h]
    by_cases hop : c.op = "relax.call_tir"
    · rw [if_pos hop, visitCallTir]
    · rw [if_neg hop]

/-- Concrete witness module: `main` issues three call-TIR calls to the
structurally equal `f1`/`f2`, one unrelated call, one extern call, and
`helper` issues one call-TIR call to `f3`. -/
def mWitness : IRModule :=
  ⟨[("main", BaseFunc.relaxFunc ⟨[
      ⟨"relax.call_tir", CallArg.globalVar "f1"⟩,
      ⟨"relax.call_tir", CallArg.globalVar "f2"⟩,
      ⟨"relax.add", CallArg.globalVar "f1"⟩,
      ⟨"relax.call_tir", CallArg.externFunc "cblas"⟩,
      ⟨"relax.call_tir", CallArg.globalVar "f1"⟩]⟩),
    ("f1", BaseFunc.primFunc ⟨["x"], 7⟩),
    ("f2", BaseFunc.primFunc ⟨["y"], 7⟩),
    ("f3", BaseFunc.primFunc ⟨[], 9⟩),
    ("helper", BaseFunc.relaxFunc ⟨[⟨"relax.call_tir", CallArg.globalVar "f3"⟩]⟩)]⟩

/-- The task list extracted from `mWitness`: one task of weight 3 for the
class of `f1`/`f2` and one of weight 1 for `f3`. -/
def tsWitness : List ExtractedTask :=
  [⟨"f1", ⟨["x"], 7⟩, [⟨["x"], 7⟩], 3⟩, ⟨"f3", ⟨[], 9⟩, [⟨[], 9⟩], 1⟩]

/-- Witness for C1 at the concrete module `mWitness`. -/
theorem extract_one_task_per_class_witness :
    extractTask mWitness = some tsWitness
    ∧ ((tsWitness.map (fun t => t.mod.structKey)).Nodup
      ∧ (∀ k : Nat, k ∈ tsWitness.map (fun t => t.mod.structKey)
          ↔ k ∈ keysOf (callTirSites mWitness))
      ∧ ∀ t ∈ tsWitness, t.weight = countKey t.mod.structKey (callTirSites mWitness)) :=
  ⟨rfl, extract_one_task_per_class mWitness tsWitness rfl⟩

/-- Witness for C10 at the concrete module `mWitness`. -/
theorem extract_order_and_names_witness :
    extractTask mWitness = some tsWitness
    ∧ tsWitness.map (fun t => (t.task_name, t.mod)) = firstSites (callTirSites mWitness) :=
  ⟨rfl, extract_order_and_names mWitness tsWitness rfl⟩

/-- Witness for C9: a non-call-TIR call and an extern-callee call both leave
a concrete nonempty extractor state unchanged. -/
theorem visit_non_calltir_unchanged_witness :
    ((("relax.add" : String) ≠ "relax.call_tir"
        ∨ ∃ n, CallArg.globalVar "f1" = CallArg.externFunc n)
      ∧ visitCall mWitness ⟨tsWitness, []⟩ ⟨"relax.add", CallArg.globalVar "f1"⟩
          = some ⟨tsWitness, []⟩)
    ∧ ((("relax.call_tir" : String) ≠ "relax.call_tir"
        ∨ ∃ n, CallArg.externFunc "cblas" = CallArg.externFunc n)
      ∧ visitCall mWitness ⟨tsWitness, []⟩ ⟨"relax.call_tir", CallArg.externFunc "cblas"⟩
          = some ⟨tsWitness, []⟩) :=
  ⟨⟨Or.inl (by decide),
    visit_non_calltir_unchanged mWitness ⟨tsWitness, []⟩
      ⟨"relax.add", CallArg.globalVar "f1"⟩ (Or.inl (by decide))⟩,
   ⟨Or.inr ⟨"cblas", rfl⟩,
    visit_non_calltir_unchanged mWitness ⟨tsWitness, []⟩
      ⟨"relax.call_tir", CallArg.externFunc "cblas"⟩ (Or.inr ⟨"cblas", rfl⟩)⟩⟩

end TaskExtraction

namespace TirBuilder

/-!
The TIR IR-builder frame engine.  Only the interface header
`include/tvm/script/ir_builder/tir/ir.h` is part of the excerpt; the frame
and builder implementation is absent, so every definition below is marked
`Modelled from the spec:` and follows the specification's frame-stack
design (sections 3–5 and 7 of the specification): a stack of open frames,
push on scope open, pop with node assembly on scope close, leaf calls that
mutate the topmost frame, and the error taxonomy scope-mismatch /
duplicate-setting / pairing-violation / argument-shape / unclosed-scope.
-/

/-- Modelled from the spec: a builder-allocated variable (loop variable or
block iteration variable), identified by a fresh numeric id and a name
hint. -/
structure BVar where
  id : Nat
  name : String
deriving DecidableEq

/-- Modelled from the spec: the fragment of TIR expressions the frame engine
manipulates — integer immediates and references to builder variables. -/
inductive PrimExpr where
  | intImm (value : Int)
  | loopVar (v : BVar)
deriving DecidableEq

/-- Modelled from the spec: the kind tag of an iteration variable
(spatial / reduce / scan / opaque-tagged). -/
inductive IterKind where
  | spatial
  | reduce
  | scan
  | opaq
deriving DecidableEq

/-- Modelled from the spec: an iteration-variable binding — a fresh variable,
a domain range (lower bound and exclusive upper bound), the binding
expression, and the kind tag. -/
structure IterVar where
  var : BVar
  dom : PrimExpr × PrimExpr
  binding : PrimExpr
  kind : IterKind
deriving DecidableEq

/-- Modelled from the spec: an opaque buffer-region token, as recorded by the
`Reads`/`Writes` leaf statements. -/
structure BufferRegion where
  id : Nat
deriving DecidableEq

/-- Modelled from the spec: the five loop kinds of the For-family. -/
inductive ForKind where
  | serial
  | parallel
  | vectorized
  | unroll
  | threadBinding
deriving DecidableEq

/-- Modelled from the spec: one loop level held by a For frame — kind, loop
variable, lower bound, exclusive upper bound, and the optional thread tag of
a thread-binding loop. -/
structure LoopSpec where
  kind : ForKind
  var : BVar
  start : PrimExpr
  stop : PrimExpr
  thread : Option String
deriving DecidableEq

/-- Modelled from the spec: the immutable IR statement nodes assembled when
frames close.  `thenBranch`/`elseBranch` are the intermediate branch nodes a
`Then`/`Else` frame assembles; the enclosing `If` frame consumes them at its
own close to build the conditional node. -/
inductive Stmt where
  | evaluate (value : PrimExpr)
  | seqStmt (stmts : List Stmt)
  | forNode (kind : ForKind) (v : BVar) (start stop : PrimExpr)
      (thread : Option String) (body : Stmt)
  | blockNode (name : String) (iterVars : List IterVar)
      (reads writes : List BufferRegion) (predicate : Option PrimExpr) (body : Stmt)
  | blockRealize (block : Stmt)
  | ifThenElse (cond : PrimExpr) (thenCase : Stmt) (elseCase : Option Stmt)
  | thenBranch (body : List Stmt)
  | elseBranch (body : List Stmt)
  | whileNode (cond : PrimExpr) (body : Stmt)
  | letNode (v : BVar) (value : PrimExpr) (body : Stmt)
  | assertNode (cond : PrimExpr) (msg : String) (body : Stmt)
  | funcNode (body : Stmt)

/-- Modelled from the spec: the catalogue of open scopes.  Each frame owns a
body list of fully assembled child statements plus its kind-specific
accumulated fields. -/
inductive Frame where
  | primFunc (body : List Stmt)
  | block (name : String) (iterVars : List IterVar)
      (reads : Option (List BufferRegion)) (writes : Option (List BufferRegion))
      (predicate : Option PrimExpr) (noRealize : Bool) (body : List Stmt)
  | forF (specs : List LoopSpec) (body : List Stmt)
  | ifF (cond : PrimExpr) (body : List Stmt)
  | thenF (body : List Stmt)
  | elseF (body : List Stmt)
  | whileF (cond : PrimExpr) (body : List Stmt)
  | letF (v : BVar) (value : PrimExpr) (body : List Stmt)
  | assertF (cond : PrimExpr) (msg : String) (body : List Stmt)

/-- Modelled from the spec: the body list of a frame. -/
def Frame.body : Frame → List Stmt
  | Frame.primFunc body => body
  | Frame.block _ _ _ _ _ _ body => body
  | Frame.forF _ body => body
  | Frame.ifF _ body => body
  | Frame.thenF body => body
  | Frame.elseF body => body
  | Frame.whileF _ body => body
  | Frame.letF _ _ body => body
  | Frame.assertF _ _ body => body

/-- Modelled from the spec: replace the body list of a frame, leaving every
other accumulated field unchanged. -/
def Frame.withBody : Frame → List Stmt → Frame
  | Frame.primFunc _, b => Frame.primFunc b
  | Frame.block n ivs r w p nr _, b => Frame.block n ivs r w p nr b
  | Frame.forF specs _, b => Frame.forF specs b
  | Frame.ifF c _, b => Frame.ifF c b
  | Frame.thenF _, b => Frame.thenF b
  | Frame.elseF _, b => Frame.elseF b
  | Frame.whileF c _, b => Frame.whileF c b
  | Frame.letF v val _, b => Frame.letF v val b
  | Frame.assertF c msg _, b => Frame.assertF c msg b

/-- Modelled from the spec: append one assembled child node at the end of a
frame's body list (body order is call order). -/
def Frame.appendBody (f : Frame) (s : Stmt) : Frame :=
  f.withBody (f.body ++ [s])

/-- Modelled from the spec: the error taxonomy of section 7. -/
inductive BuilderError where
  | scopeMismatch
  | duplicateSetting
  | pairingViolation
  | argShape
  | unclosedScope
deriving DecidableEq

/-- Modelled from the spec: the builder context — the stack of open frames
(head of the list is the topmost, i.e. most recently pushed, frame) and the
counter backing fresh-variable allocation. -/
structure Builder where
  stack : List Frame
  fresh : Nat

/-- Modelled from the spec: wrap a body list into a single statement — a
single statement stands alone, any other number is wrapped in a sequence
node. -/
def AsStmt : List Stmt → Stmt
  | [s] => s
  | ss => Stmt.seqStmt ss

/-- Modelled from the spec: build the nested loop nest of a For frame around
a body, one loop node per loop spec, the innermost spec last.  Zero specs
produce the body unchanged (no loop node). -/
def mkLoops : List LoopSpec → Stmt → Stmt
  | [], body => body
  | sp :: rest, body =>
    Stmt.forNode sp.kind sp.var sp.start sp.stop sp.thread (mkLoops rest body)

/-- Modelled from the spec: the kind-specific assembly rule applied when a
frame closes, consuming the accumulated fields and body list to build one
immutable node.  The If frame validates its accumulated branch nodes: a
then-branch, optionally followed by an else-branch; anything else is a
pairing violation detected at close time. -/
def assemble : Frame → Except BuilderError Stmt
  | Frame.primFunc body => Except.ok (Stmt.funcNode (AsStmt body))
  | Frame.block n ivs r w p nr body =>
    let blk := Stmt.blockNode n ivs (r.getD []) (w.getD []) p (AsStmt body)
    Except.ok (if nr then blk else Stmt.blockRealize blk)
  | Frame.forF specs body => Except.ok (mkLoops specs (AsStmt body))
  | Frame.ifF cond body =>
    match body with
    | [Stmt.thenBranch t] => Except.ok (Stmt.ifThenElse cond (AsStmt t) none)
    | [Stmt.thenBranch t, Stmt.elseBranch e] =>
      Except.ok (Stmt.ifThenElse cond (AsStmt t) (some (AsStmt e)))
    | _ => Except.error BuilderError.pairingViolation
  | Frame.thenF body => Except.ok (Stmt.thenBranch body)
  | Frame.elseF body => Except.ok (Stmt.elseBranch body)
  | Frame.whileF c body => Except.ok (Stmt.whileNode c (AsStmt body))
  | Frame.letF v val body => Except.ok (Stmt.letNode v val (AsStmt body))
  | Frame.assertF c msg body => Except.ok (Stmt.assertNode c msg (AsStmt body))

/-- Modelled from the spec: `Push(frame)` appends the frame to the stack and
makes it current. -/
def pushF (f : Frame) (st : Builder) : Builder :=
  { st with stack := f :: st.stack }

/-- Modelled from the spec: allocate a fresh builder variable. -/
def freshVar (st : Builder) : BVar × Builder :=
  (⟨st.fresh, "v"⟩, { st with fresh := st.fresh + 1 })

/-- Modelled from the spec: finish closing the outermost frame — its
assembled node is returned to the caller and the stack becomes empty. -/
def popOutermost (st : Builder) :
    Except BuilderError Stmt → Except BuilderError (Builder × Option Stmt)
  | Except.ok node => Except.ok ({ st with stack := [] }, some node)
  | Except.error e => Except.error e

/-- Modelled from the spec: finish closing a non-outermost frame — its
assembled node is appended at the end of the body list of `parent`, the
frame that becomes topmost. -/
def popAssembled (st : Builder) (parent : Frame) (rest : List Frame) :
    Except BuilderError Stmt → Except BuilderError (Builder × Option Stmt)
  | Except.ok node =>
    Except.ok ({ st with stack := parent.appendBody node :: rest }, none)
  | Except.error e => Except.error e

/-- Modelled from the spec: dispatch of `Pop()` on the stack shape. -/
def popAux (st : Builder) : List Frame → Except BuilderError (Builder × Option Stmt)
  | [] => Except.error BuilderError.scopeMismatch
  | [f] => popOutermost st (assemble f)
  | f :: parent :: rest => popAssembled st parent rest (assemble f)

/-- Modelled from the spec: `Pop()` closes the current (topmost) frame: its
assembly rule runs, and the assembled node is appended, in call order, to the
body list of the frame that becomes topmost; if the closed frame was
outermost, the node is instead returned to the caller.  Popping an empty
stack is a scope mismatch. -/
def pop (st : Builder) : Except BuilderError (Builder × Option Stmt) :=
  popAux st st.stack

/-- Modelled from the spec: `Exit()` asserts that the frame stack is empty;
a non-empty stack at exit is the fatal unclosed-scope error. -/
def ExitBuilder (st : Builder) : Except BuilderError Unit :=
  match st.stack with
  | [] => Except.ok ()
  | _ => Except.error BuilderError.unclosedScope

/-- Modelled from the spec: `PrimFunc()` opens a function frame. -/
def PrimFunc (st : Builder) : Builder :=
  pushF (Frame.primFunc []) st

/-- Modelled from the spec: `Block(name, no_realize)` opens a block frame
with no regions, no predicate and no iteration variables yet. -/
def Block (name : String) (noRealize : Bool) (st : Builder) : Builder :=
  pushF (Frame.block name [] none none none noRealize []) st

/-- Modelled from the spec: `Where(predicate)` records the block predicate on
the current block frame; setting it twice is a duplicate-setting error, and
calling it while the topmost frame is not a block frame is a scope
mismatch. -/
def Where (predicate : PrimExpr) (st : Builder) : Except BuilderError Builder :=
  match st.stack with
  | Frame.block n ivs r w none nr body :: fs =>
    Except.ok { st with stack := Frame.block n ivs r w (some predicate) nr body :: fs }
  | Frame.block _ _ _ _ (some _) _ _ :: _ => Except.error BuilderError.duplicateSetting
  | _ => Except.error BuilderError.scopeMismatch

/-- Modelled from the spec: `Reads(regions)` records the read regions on the
current block frame, with the same single-use and scope rules as `Where`. -/
def Reads (regions : List BufferRegion) (st : Builder) : Except BuilderError Builder :=
  match st.stack with
  | Frame.block n ivs none w p nr body :: fs =>
    Except.ok { st with stack := Frame.block n ivs (some regions) w p nr body :: fs }
  | Frame.block _ _ (some _) _ _ _ _ :: _ => Except.error BuilderError.duplicateSetting
  | _ => Except.error BuilderError.scopeMismatch

/-- Modelled from the spec: `Writes(regions)` records the write regions on
the current block frame, with the same single-use and scope rules as
`Where`. -/
def Writes (regions : List BufferRegion) (st : Builder) : Except BuilderError Builder :=
  match st.stack with
  | Frame.block n ivs r none p nr body :: fs =>
    Except.ok { st with stack := Frame.block n ivs r (some regions) p nr body :: fs }
  | Frame.block _ _ _ (some _) _ _ _ :: _ => Except.error BuilderError.duplicateSetting
  | _ => Except.error BuilderError.scopeMismatch

/-- Modelled from the spec: `Evaluate(value)` appends a bare-expression
statement to the body of the current frame. -/
def Evaluate (value : PrimExpr) (st : Builder) : Except BuilderError Builder :=
  match st.stack with
  | [] => Except.error BuilderError.scopeMismatch
  | f :: fs => Except.ok { st with stack := f.appendBody (Stmt.evaluate value) :: fs }

/-- Modelled from the spec: `Serial(start, stop)` opens a For frame holding a
single serial loop over `[start, stop)` with a fresh loop variable. -/
def Serial (start stop : PrimExpr) (st : Builder) : Builder :=
  let (v, st1) := freshVar st
  pushF (Frame.forF [⟨ForKind.serial, v, start, stop, none⟩] []) st1

/-- Modelled from the spec: the parallel For statement. -/
def Parallel (start stop : PrimExpr) (st : Builder) : Builder :=
  let (v, st1) := freshVar st
  pushF (Frame.forF [⟨ForKind.parallel, v, start, stop, none⟩] []) st1

/-- Modelled from the spec: the vectorized For statement. -/
def Vectorized (start stop : PrimExpr) (st : Builder) : Builder :=
  let (v, st1) := freshVar st
  pushF (Frame.forF [⟨ForKind.vectorized, v, start, stop, none⟩] []) st1

/-- Modelled from the spec: the unrolled For statement. -/
def Unroll (start stop : PrimExpr) (st : Builder) : Builder :=
  let (v, st1) := freshVar st
  pushF (Frame.forF [⟨ForKind.unroll, v, start, stop, none⟩] []) st1

/-- Modelled from the spec: the thread-binding For statement, additionally
carrying its thread-tag string. -/
def ThreadBinding (start stop : PrimExpr) (thread : String) (st : Builder) : Builder :=
  let (v, st1) := freshVar st
  pushF (Frame.forF [⟨ForKind.threadBinding, v, start, stop, some thread⟩] []) st1

/-- Modelled from the spec: allocate one serial loop spec per grid extent,
each running from zero to its extent with a fresh loop variable. -/
def gridSpecs : List PrimExpr → Builder → List LoopSpec × Builder
  | [], st => ([], st)
  | e :: es, st =>
    let (v, st1) := freshVar st
    let (rest, st2) := gridSpecs es st1
    (⟨ForKind.serial, v, PrimExpr.intImm 0, e, none⟩ :: rest, st2)

/-- Modelled from the spec: `Grid(extents)` opens one For frame whose close
desugars to nested serial loops, one per extent, innermost opened last; zero
extents yield an empty loop nest whose body attaches directly to the
parent. -/
def Grid (extents : List PrimExpr) (st : Builder) : Builder :=
  let (specs, st1) := gridSpecs extents st
  pushF (Frame.forF specs []) st1

/-- Modelled from the spec: `If(cond)` opens a conditional frame with no
branch yet. -/
def If (cond : PrimExpr) (st : Builder) : Builder :=
  pushF (Frame.ifF cond []) st

/-- Modelled from the spec: `Then()` requires the current frame to be an
`If` frame with no branch assembled yet and opens the then frame; any other
current frame is a pairing violation, and no branch node is assembled in
the failing case. -/
def Then (st : Builder) : Except BuilderError Builder :=
  match st.stack with
  | Frame.ifF _ [] :: _ => Except.ok (pushF (Frame.thenF []) st)
  | _ => Except.error BuilderError.pairingViolation

/-- Modelled from the spec: `Else()` requires the current frame to be an
`If` frame whose only assembled branch is a just-closed then branch, and
opens the else frame; any other current frame is a pairing violation, and no
branch node is assembled in the failing case. -/
def Else (st : Builder) : Except BuilderError Builder :=
  match st.stack with
  | Frame.ifF _ [Stmt.thenBranch _] :: _ => Except.ok (pushF (Frame.elseF []) st)
  | _ => Except.error BuilderError.pairingViolation

/-- Modelled from the spec: `While(cond)` opens a while frame. -/
def While (cond : PrimExpr) (st : Builder) : Builder :=
  pushF (Frame.whileF cond []) st

/-- Modelled from the spec: `Let(var, value)` opens a let-binding frame. -/
def Let (v : BVar) (value : PrimExpr) (st : Builder) : Builder :=
  pushF (Frame.letF v value []) st

/-- Modelled from the spec: `Assert(cond, message)` opens an assertion
frame. -/
def Assert (cond : PrimExpr) (msg : String) (st : Builder) : Builder :=
  pushF (Frame.assertF cond msg []) st

namespace axis

/-- Modelled from the spec: find the domain of a loop variable by a reverse
scan of the stack for the enclosing For frame that declares it. -/
def lookupLoop (v : BVar) : List Frame → Option (PrimExpr × PrimExpr)
  | [] => none
  | Frame.forF specs _ :: rest =>
    match specs.find? (fun sp => sp.var == v) with
    | some sp => some (sp.start, sp.stop)
    | none => lookupLoop v rest
  | _ :: rest => lookupLoop v rest

/-- Modelled from the spec: decompose a binding expression against the
enclosing loop nest to recover the axis's implied domain.  Following the
specification's documented matching rule, a binding must be exactly one
enclosing loop variable; anything else is unresolvable. -/
def decomposeBinding (stack : List Frame) : PrimExpr → Option (PrimExpr × PrimExpr)
  | PrimExpr.loopVar v => lookupLoop v stack
  | _ => none

/-- Modelled from the spec: the single-axis defining step — requires the
current (topmost) frame to be a block frame and appends one iteration
variable, with a fresh builder variable, at the end of that block's
iteration-variable list. -/
def axisDef (kind : IterKind) (dom : PrimExpr × PrimExpr) (binding : PrimExpr)
    (st : Builder) : Except BuilderError Builder :=
  match st.stack with
  | Frame.block n ivs r w p nr body :: fs =>
    Except.ok { stack := Frame.block n (ivs ++ [⟨⟨st.fresh, "v"⟩, dom, binding, kind⟩])
                  r w p nr body :: fs,
                fresh := st.fresh + 1 }
  | _ => Except.error BuilderError.scopeMismatch

/-- Modelled from the spec: the spatial block-axis defining function. -/
def Spatial (dom : PrimExpr × PrimExpr) (binding : PrimExpr) (st : Builder) :
    Except BuilderError Builder :=
  axisDef IterKind.spatial dom binding st

/-- Modelled from the spec: the reduced block-axis defining function. -/
def Reduce (dom : PrimExpr × PrimExpr) (binding : PrimExpr) (st : Builder) :
    Except BuilderError Builder :=
  axisDef IterKind.reduce dom binding st

/-- Modelled from the spec: the scanning block-axis defining function. -/
def Scan (dom : PrimExpr × PrimExpr) (binding : PrimExpr) (st : Builder) :
    Except BuilderError Builder :=
  axisDef IterKind.scan dom binding st

/-- Modelled from the spec: the kind tag denoted by one character of the
`Remap` kinds string. -/
def charKind : Char → Option IterKind
  | 'S' => some IterKind.spatial
  | 'R' => some IterKind.reduce
  | _ => none

/-- Modelled from the spec: one axis of a `Remap` call — an unrecognised
kind character or an unresolvable binding is an argument-shape error,
otherwise the single-axis step runs with the recovered domain. -/
def remapStep (kOpt : Option IterKind) (domOpt : Option (PrimExpr × PrimExpr))
    (b : PrimExpr) (st : Builder) : Except BuilderError Builder :=
  match kOpt, domOpt with
  | some k, some dom => axisDef k dom b st
  | _, _ => Except.error BuilderError.argShape

/-- Sequencing helper: continue with the builder produced by an axis step,
or abort on its error. -/
def remapThen (x : Except BuilderError Builder)
    (k : Builder → Except BuilderError Builder) : Except BuilderError Builder :=
  match x with
  | Except.ok st1 => k st1
  | Except.error e => Except.error e

/-- Modelled from the spec: process the kind characters and binding
expressions of a `Remap` call in order, decomposing each binding to recover
its domain and delegating to the single-axis step. -/
def remapGo : List Char → List PrimExpr → Builder → Except BuilderError Builder
  | [], [], st => Except.ok st
  | c :: cs, b :: bs, st =>
    remapThen (remapStep (charKind c) (decomposeBinding st.stack b) b st)
      (fun st1 => remapGo cs bs st1)
  | _, _, _ => Except.error BuilderError.argShape

/-- Modelled from the spec: `Remap(kinds, bindings)` — the batch axis form.
A length mismatch between the kinds string and the bindings array is a fatal
argument-shape error, checked before any axis is created. -/
def Remap (kinds : String) (bindings : List PrimExpr) (st : Builder) :
    Except BuilderError Builder :=
  if kinds.toList.length = bindings.length then remapGo kinds.toList bindings st
  else Except.error BuilderError.argShape

end axis

/-- Modelled from the spec: the open/close operations of one builder
session, for stating the push/pop balance invariant. -/
inductive BOp where
  | push (f : Frame)
  | pop

/-- Sequencing helper: continue with the builder produced by a `Pop`, or
abort on its error. -/
def popThen (x : Except BuilderError (Builder × Option Stmt))
    (k : Builder → Except BuilderError Builder) : Except BuilderError Builder :=
  match x with
  | Except.ok pr => k pr.1
  | Except.error e => Except.error e

/-- Modelled from the spec: run a sequence of open/close operations,
aborting on the first error. -/
def runOps : List BOp → Builder → Except BuilderError Builder
  | [], st => Except.ok st
  | BOp.push f :: ops, st => runOps ops (pushF f st)
  | BOp.pop :: ops, st => popThen (pop st) (fun st1 => runOps ops st1)

/-- Number of `Push` operations in a sequence. -/
def countPush : List BOp → Nat
  | [] => 0
  | BOp.push _ :: ops => countPush ops + 1
  | BOp.pop :: ops => countPush ops

/-- Number of `Pop` operations in a sequence. -/
def countPop : List BOp → Nat
  | [] => 0
  | BOp.push _ :: ops => countPop ops
  | BOp.pop :: ops => countPop ops + 1

theorem pop_length {st st1 : Builder} {r : Option Stmt}
    (h : pop st = Except.ok (st1, r)) :
    st1.stack.length + 1 = st.stack.length := by
  rw [pop] at h
  rcases hs : st.stack with _ | ⟨f, rest⟩
  · rw [hs, popAux] at h
    exact absurd h (by simp)
  · rcases rest with _ | ⟨parent, rest'⟩
    · rw [hs, popAux] at h
      rcases ha : assemble f with e | node
      · rw [ha, popOutermost] at h
        exact absurd h (by simp)
      · rw [ha, popOutermost] at h
        have hpr := Except.ok.inj h
        have hst1 : st1 = { st with stack := [] } := (congrArg Prod.fst hpr).symm
        rw [hst1]
        simp
    · rw [hs, popAux] at h
      rcases ha : assemble f with e | node
      · rw [ha, popAssembled] at h
        exact absurd h (by simp)
      · rw [ha, popAssembled] at h
        have hpr := Except.ok.inj h
        have hst1 : st1 = { st with stack := parent.appendBody node :: rest' } :=
          (congrArg Prod.fst hpr).symm
        rw [hst1]
        simp

theorem runOps_length (ops : List BOp) :
    ∀ (st st' : Builder), runOps ops st = Except.ok st' →
      st'.stack.length + countPop ops = st.stack.length + countPush ops := by
  induction ops with
  | nil =>
    intro st st' h
    rw [runOps] at h
    have hst : st = st' := Except.ok.inj h
    subst hst
    simp [countPop, countPush]
  | cons op ops ih =>
    intro st st' h
    rcases op with f | _
    · rw [runOps] at h
      have hrec := ih (pushF f st) st' h
      simp only [countPush, countPop, pushF, List.length_cons] at hrec ⊢
      omega
    · rw [runOps] at h
      rcases hp : pop st with e | pr
      · rw [hp, popThen] at h
        exact absurd h (by simp)
      · rw [hp, popThen] at h
        have hlen : pr.1.stack.length + 1 = st.stack.length := pop_length (r := pr.2) (by rw [hp])
        have hrec := ih pr.1 st' h
        simp only [countPush, countPop] at hrec ⊢
        omega

/-- C6: for every well-formed open/close sequence in one builder context
(one whose run from the empty stack succeeds), the number of `Pop`
operations equals the number of `Push` operations exactly when the final
frame stack is empty, i.e. when the outermost opened scope has closed; and
if some opened scope was never closed (`Pop` count below `Push` count),
exiting the builder context is the fatal unclosed-scope error. -/
theorem push_pop_balance (ops : List BOp) (st' : Builder)
    (h : runOps ops ⟨[], 0⟩ = Except.ok st') :
    (countPop ops = countPush ops ↔ st'.stack = [])
    ∧ (countPop ops < countPush ops →
        ExitBuilder st' = Except.error BuilderError.unclosedScope) := by
  have hlen := runOps_length ops ⟨[], 0⟩ st' h
  simp only [List.length_nil, Nat.zero_add] at hlen
  constructor
  · constructor
    · intro he
      have hz : st'.stack.length = 0 := by omega
      exact List.length_eq_zero.mp hz
    · intro he
      rw [he] at hlen
      simp only [List.length_nil, Nat.zero_add] at hlen
      exact hlen
  · intro hlt
    have hne : st'.stack ≠ [] := by
      intro he
      rw [he] at hlen
      simp only [List.length_nil, Nat.zero_add] at hlen
      omega
    rw [ExitBuilder]
    rcases hs : st'.stack with _ | ⟨f, fs⟩
    · exact absurd hs hne
    · rfl

/-- Witness for C6: a session that opens one while frame and closes it. -/
theorem push_pop_balance_witness :
    runOps [BOp.push (Frame.whileF (PrimExpr.intImm 1) []), BOp.pop] ⟨[], 0⟩
      = Except.ok ⟨[], 0⟩
    ∧ ((countPop [BOp.push (Frame.whileF (PrimExpr.intImm 1) []), BOp.pop]
          = countPush [BOp.push (Frame.whileF (PrimExpr.intImm 1) []), BOp.pop]
        ↔ Builder.stack ⟨[], 0⟩ = [])
      ∧ (countPop [BOp.push (Frame.whileF (PrimExpr.intImm 1) []), BOp.pop]
          < countPush [BOp.push (Frame.whileF (PrimExpr.intImm 1) []), BOp.pop] →
          ExitBuilder ⟨[], 0⟩ = Except.error BuilderError.unclosedScope)) :=
  ⟨rfl, push_pop_balance [BOp.push (Frame.whileF (PrimExpr.intImm 1) []), BOp.pop] ⟨[], 0⟩ rfl⟩

/-- C7: every successful close of a non-outermost frame appends exactly one
fully assembled node at the end of the body list of the frame that becomes
topmost (so body order is call order — statements appear in the order their
scopes were closed), returns nothing to the caller, and modifies no other
frame and no other field of the parent frame. -/
theorem pop_appends_exactly_one (st st' : Builder) (f parent : Frame) (fs : List Frame)
    (r : Option Stmt) (hstack : st.stack = f :: parent :: fs)
    (h : pop st = Except.ok (st', r)) :
    ∃ node, assemble f = Except.ok node
      ∧ st' = { stack := parent.withBody (parent.body ++ [node]) :: fs, fresh := st.fresh }
      ∧ r = none := by
  rw [pop, hstack, popAux] at h
  rcases ha : assemble f with e | node
  · rw [ha, popAssembled] at h
    exact absurd h (by simp)
  · rw [ha, popAssembled] at h
    have hpr := Except.ok.inj h
    have hr : r = none := (congrArg Prod.snd hpr).symm
    have h1 : { st with stack := parent.appendBody node :: fs } = st' :=
      congrArg Prod.fst hpr
    refine ⟨node, rfl, ?_, hr⟩
    rw [← h1]
    rfl

/-- Witness for C7: closing an assertion frame nested under a function frame
appends the assembled assertion node after the function frame's existing
statement. -/
theorem pop_appends_exactly_one_witness :
    (Builder.stack ⟨[Frame.assertF (PrimExpr.intImm 1) "m" [],
          Frame.primFunc [Stmt.evaluate (PrimExpr.intImm 0)]], 3⟩
        = Frame.assertF (PrimExpr.intImm 1) "m" []
          :: Frame.primFunc [Stmt.evaluate (PrimExpr.intImm 0)] :: [])
    ∧ pop ⟨[Frame.assertF (PrimExpr.intImm 1) "m" [],
          Frame.primFunc [Stmt.evaluate (PrimExpr.intImm 0)]], 3⟩
        = Except.ok (⟨[Frame.primFunc [Stmt.evaluate (PrimExpr.intImm 0),
            Stmt.assertNode (PrimExpr.intImm 1) "m" (Stmt.seqStmt [])]], 3⟩, none)
    ∧ ∃ node, assemble (Frame.assertF (PrimExpr.intImm 1) "m" []) = Except.ok node
      ∧ (⟨[Frame.primFunc [Stmt.evaluate (PrimExpr.intImm 0),
            Stmt.assertNode (PrimExpr.intImm 1) "m" (Stmt.seqStmt [])]], 3⟩ : Builder)
        = { stack := (Frame.primFunc [Stmt.evaluate (PrimExpr.intImm 0)]).withBody
              ((Frame.primFunc [Stmt.evaluate (PrimExpr.intImm 0)]).body ++ [node]) :: [],
            fresh := Builder.fresh ⟨[Frame.assertF (PrimExpr.intImm 1) "m" [],
              Frame.primFunc [Stmt.evaluate (PrimExpr.intImm 0)]], 3⟩ }
      ∧ (none : Option Stmt) = none :=
  ⟨rfl, rfl,
   pop_appends_exactly_one
     ⟨[Frame.assertF (PrimExpr.intImm 1) "m" [],
        Frame.primFunc [Stmt.evaluate (PrimExpr.intImm 0)]], 3⟩
     ⟨[Frame.primFunc [Stmt.evaluate (PrimExpr.intImm 0),
        Stmt.assertNode (PrimExpr.intImm 1) "m" (Stmt.seqStmt [])]], 3⟩
     (Frame.assertF (PrimExpr.intImm 1) "m" [])
     (Frame.primFunc [Stmt.evaluate (PrimExpr.intImm 0)])
     [] none rfl rfl⟩

/-- C2: opening a Grid frame with an empty extents list produces no loop
node: its assembled result is the plain body (first clause: end to end, a
single body statement attaches directly to the enclosing frame; second
clause: the zero-spec For frame assembles to `AsStmt body` with no `forNode`
wrapper for every body); and `Grid [n]` produces exactly the builder state of
`Serial 0 n`. -/
theorem grid_empty_and_singleton (st : Builder) (parent : Frame) (fs : List Frame)
    (e n : PrimExpr) (hstack : st.stack = parent :: fs) :
    (∃ st1, Evaluate e (Grid [] st) = Except.ok st1
      ∧ pop st1 = Except.ok
          ({ stack := parent.appendBody (Stmt.evaluate e) :: fs, fresh := st.fresh }, none))
    ∧ (∀ body, assemble (Frame.forF [] body) = Except.ok (AsStmt body))
    ∧ Grid [n] st = Serial (PrimExpr.intImm 0) n st := by
  refine ⟨⟨⟨Frame.forF [] [Stmt.evaluate e] :: parent :: fs, st.fresh⟩, ?_, ?_⟩,
    fun body => rfl, rfl⟩
  · have h1 : Grid [] st = ⟨Frame.forF [] [] :: parent :: fs, st.fresh⟩ := by
      rw [show Grid [] st = (⟨Frame.forF [] [] :: st.stack, st.fresh⟩ : Builder) from rfl,
        hstack]
    rw [h1]
    rfl
  · rfl

/-- Witness for C2 at a concrete one-frame state. -/
theorem grid_empty_and_singleton_witness :
    Builder.stack ⟨[Frame.primFunc []], 0⟩ = Frame.primFunc [] :: []
    ∧ ((∃ st1, Evaluate (PrimExpr.intImm 5) (Grid [] ⟨[Frame.primFunc []], 0⟩)
          = Except.ok st1
        ∧ pop st1 = Except.ok
            ({ stack := (Frame.primFunc []).appendBody (Stmt.evaluate (PrimExpr.intImm 5))
                :: [], fresh := Builder.fresh ⟨[Frame.primFunc []], 0⟩ }, none))
      ∧ (∀ body, assemble (Frame.forF [] body) = Except.ok (AsStmt body))
      ∧ Grid [PrimExpr.intImm 7] ⟨[Frame.primFunc []], 0⟩
          = Serial (PrimExpr.intImm 0) (PrimExpr.intImm 7) ⟨[Frame.primFunc []], 0⟩) :=
  ⟨rfl, grid_empty_and_singleton ⟨[Frame.primFunc []], 0⟩ (Frame.primFunc []) []
    (PrimExpr.intImm 5) (PrimExpr.intImm 7) rfl⟩

/-- C4: `Then()` fails with a pairing violation whenever the current frame is
not an open `If` frame with no branch assembled yet (this covers both a
missing enclosing `If` and an `If` that already has an assembled then
branch), and `Else()` fails with a pairing violation whenever the current
frame is not an `If` frame holding exactly a closed then branch; in the
failing cases the builder produces only the error, so no branch node is
assembled anywhere. -/
theorem then_else_pairing (st : Builder) :
    ((∀ c rest, st.stack ≠ Frame.ifF c [] :: rest) →
      Then st = Except.error BuilderError.pairingViolation)
    ∧ ((∀ c t rest, st.stack ≠ Frame.ifF c [Stmt.thenBranch t] :: rest) →
      Else st = Except.error BuilderError.pairingViolation) := by
  constructor
  · intro hshape
    rw [Then]
    rcases hs : st.stack with _ | ⟨f, rest⟩
    · rfl
    · cases f <;> try rfl
      next c body =>
        cases body with
        | nil => exact absurd hs (hshape c rest)
        | cons s tail => rfl
  · intro hshape
    rw [Else]
    rcases hs : st.stack with _ | ⟨f, rest⟩
    · rfl
    · cases f <;> try rfl
      next c body =>
        cases body with
        | nil => rfl
        | cons s tail =>
          cases s <;> try rfl
          next t =>
            cases tail with
            | nil => exact absurd hs (hshape c t rest)
            | cons s2 tail2 => rfl

/-- Witness for C4: `Then` with no open `If`, `Then` on an `If` whose then
branch is already assembled, and `Else` on an `If` with no closed then
branch, all fail with the pairing violation. -/
theorem then_else_pairing_witness :
    ((∀ c rest, Builder.stack ⟨[], 0⟩ ≠ Frame.ifF c [] :: rest)
      ∧ Then ⟨[], 0⟩ = Except.error BuilderError.pairingViolation)
    ∧ ((∀ c rest,
          Builder.stack ⟨[Frame.ifF (PrimExpr.intImm 1) [Stmt.thenBranch []]], 0⟩
            ≠ Frame.ifF c [] :: rest)
      ∧ Then ⟨[Frame.ifF (PrimExpr.intImm 1) [Stmt.thenBranch []]], 0⟩
          = Except.error BuilderError.pairingViolation)
    ∧ ((∀ c t rest,
          Builder.stack ⟨[Frame.ifF (PrimExpr.intImm 1) []], 0⟩
            ≠ Frame.ifF c [Stmt.thenBranch t] :: rest)
      ∧ Else ⟨[Frame.ifF (PrimExpr.intImm 1) []], 0⟩
          = Except.error BuilderError.pairingViolation) := by
  have h1 : ∀ c rest, Builder.stack ⟨[], 0⟩ ≠ Frame.ifF c [] :: rest := by
    intro c rest h
    exact List.noConfusion h
  have h2 : ∀ c rest,
      Builder.stack ⟨[Frame.ifF (PrimExpr.intImm 1) [Stmt.thenBranch []]], 0⟩
        ≠ Frame.ifF c [] :: rest := by
    intro c rest h
    simp at h
  have h3 : ∀ c t rest,
      Builder.stack ⟨[Frame.ifF (PrimExpr.intImm 1) []], 0⟩
        ≠ Frame.ifF c [Stmt.thenBranch t] :: rest := by
    intro c t rest h
    simp at h
  exact ⟨⟨h1, (then_else_pairing ⟨[], 0⟩).1 h1⟩,
    ⟨h2, (then_else_pairing ⟨[Frame.ifF (PrimExpr.intImm 1) [Stmt.thenBranch []]], 0⟩).1 h2⟩,
    ⟨h3, (then_else_pairing ⟨[Frame.ifF (PrimExpr.intImm 1) []], 0⟩).2 h3⟩⟩

/-- Whether the current (topmost) frame of the builder is a block frame. -/
def blockTop (st : Builder) : Prop :=
  match st.stack with
  | Frame.block _ _ _ _ _ _ _ :: _ => True
  | _ => False

/-- C5: on a block frame whose reads (resp. writes, predicate) field is
still unset, `Reads` (resp. `Writes`, `Where`) records the given regions or
predicate on that frame; a second invocation on the same block frame — one
whose field is already set — fails with the duplicate-setting error; and
invoking any of the three while the topmost frame is not a block frame fails
with the scope-mismatch error. -/
theorem block_fields_set_once (st : Builder) (n : String) (ivs : List IterVar)
    (r w : Option (List BufferRegion)) (p : Option PrimExpr) (nr : Bool)
    (body : List Stmt) (fs : List Frame) (regions : List BufferRegion) (pred : PrimExpr) :
    (st.stack = Frame.block n ivs none w p nr body :: fs →
      Reads regions st = Except.ok
        { st with stack := Frame.block n ivs (some regions) w p nr body :: fs })
    ∧ (st.stack = Frame.block n ivs r none p nr body :: fs →
      Writes regions st = Except.ok
        { st with stack := Frame.block n ivs r (some regions) p nr body :: fs })
    ∧ (st.stack = Frame.block n ivs r w none nr body :: fs →
      Where pred st = Except.ok
        { st with stack := Frame.block n ivs r w (some pred) nr body :: fs })
    ∧ (∀ r0, st.stack = Frame.block n ivs (some r0) w p nr body :: fs →
      Reads regions st = Except.error BuilderError.duplicateSetting)
    ∧ (∀ w0, st.stack = Frame.block n ivs r (some w0) p nr body :: fs →
      Writes regions st = Except.error BuilderError.duplicateSetting)
    ∧ (∀ p0, st.stack = Frame.block n ivs r w (some p0) nr body :: fs →
      Where pred st = Except.error BuilderError.duplicateSetting)
    ∧ (¬ blockTop st → Reads regions st = Except.error BuilderError.scopeMismatch)
    ∧ (¬ blockTop st → Writes regions st = Except.error BuilderError.scopeMismatch)
    ∧ (¬ blockTop st → Where pred st = Except.error BuilderError.scopeMismatch) := by
  refine ⟨?_, ?_, ?_, ?_, ?_, ?_, ?_, ?_, ?_⟩
  · intro hs
    rw [Reads, hs]
  · intro hs
    rw [Writes, hs]
  · intro hs
    rw [Where, hs]
  · intro r0 hs
    rw [Reads, hs]
  · intro w0 hs
    rw [Writes, hs]
  · intro p0 hs
    rw [Where, hs]
  · intro hnb
    rw [Reads]
    rcases hs : st.stack with _ | ⟨f, rest⟩
    · rfl
    · cases f <;> try rfl
      next nn ii rr ww pp nn2 bb =>
        exact absurd (show blockTop st by rw [blockTop, hs]; exact True.intro) hnb
  · intro hnb
    rw [Writes]
    rcases hs : st.stack with _ | ⟨f, rest⟩
    · rfl
    · cases f <;> try rfl
      next nn ii rr ww pp nn2 bb =>
        exact absurd (show blockTop st by rw [blockTop, hs]; exact True.intro) hnb
  · intro hnb
    rw [Where]
    rcases hs : st.stack with _ | ⟨f, rest⟩
    · rfl
    · cases f <;> try rfl
      next nn ii rr ww pp nn2 bb =>
        exact absurd (show blockTop st by rw [blockTop, hs]; exact True.intro) hnb

/-- Witness for C5: success, duplicate-setting and scope-mismatch outcomes of
`Reads`/`Writes`/`Where` at concrete states. -/
theorem block_fields_set_once_witness :
    (Reads [⟨5⟩] ⟨[Frame.block "b" [] none none none false []], 0⟩
      = Except.ok ⟨[Frame.block "b" [] (some [⟨5⟩]) none none false []], 0⟩)
    ∧ (Writes [⟨6⟩] ⟨[Frame.block "b" [] none none none false []], 0⟩
      = Except.ok ⟨[Frame.block "b" [] none (some [⟨6⟩]) none false []], 0⟩)
    ∧ (Where (PrimExpr.intImm 1) ⟨[Frame.block "b" [] none none none false []], 0⟩
      = Except.ok ⟨[Frame.block "b" [] none none (some (PrimExpr.intImm 1)) false []], 0⟩)
    ∧ (Reads [⟨5⟩] ⟨[Frame.block "b" [] (some []) none none false []], 0⟩
      = Except.error BuilderError.duplicateSetting)
    ∧ (Writes [⟨6⟩] ⟨[Frame.block "b" [] none (some []) none false []], 0⟩
      = Except.error BuilderError.duplicateSetting)
    ∧ (Where (PrimExpr.intImm 1)
        ⟨[Frame.block "b" [] none none (some (PrimExpr.intImm 2)) false []], 0⟩
      = Except.error BuilderError.duplicateSetting)
    ∧ ¬ blockTop ⟨[], 0⟩
    ∧ (Reads [⟨5⟩] ⟨[], 0⟩ = Except.error BuilderError.scopeMismatch)
    ∧ (Writes [⟨6⟩] ⟨[], 0⟩ = Except.error BuilderError.scopeMismatch)
    ∧ (Where (PrimExpr.intImm 1) ⟨[], 0⟩ = Except.error BuilderError.scopeMismatch) := by
  have hnb : ¬ blockTop ⟨[], 0⟩ := fun hb => hb
  refine ⟨?_, ?_, ?_, ?_, ?_, ?_, hnb, ?_, ?_, ?_⟩
  · exact (block_fields_set_once ⟨[Frame.block "b" [] none none none false []], 0⟩
      "b" [] none none none false [] [] [⟨5⟩] (PrimExpr.intImm 1)).1 rfl
  · exact (block_fields_set_once ⟨[Frame.block "b" [] none none none false []], 0⟩
      "b" [] none none none false [] [] [⟨6⟩] (PrimExpr.intImm 1)).2.1 rfl
  · exact (block_fields_set_once ⟨[Frame.block "b" [] none none none false []], 0⟩
      "b" [] none none none false [] [] [] (PrimExpr.intImm 1)).2.2.1 rfl
  · exact (block_fields_set_once ⟨[Frame.block "b" [] (some []) none none false []], 0⟩
      "b" [] none none none false [] [] [⟨5⟩] (PrimExpr.intImm 1)).2.2.2.1 [] rfl
  · exact (block_fields_set_once ⟨[Frame.block "b" [] none (some []) none false []], 0⟩
      "b" [] none none none false [] [] [⟨6⟩] (PrimExpr.intImm 1)).2.2.2.2.1 [] rfl
  · exact (block_fields_set_once
      ⟨[Frame.block "b" [] none none (some (PrimExpr.intImm 2)) false []], 0⟩
      "b" [] none none none false [] [] [] (PrimExpr.intImm 1)).2.2.2.2.2.1
      (PrimExpr.intImm 2) rfl
  · exact (block_fields_set_once ⟨[], 0⟩
      "b" [] none none none false [] [] [⟨5⟩] (PrimExpr.intImm 1)).2.2.2.2.2.2.1 hnb
  · exact (block_fields_set_once ⟨[], 0⟩
      "b" [] none none none false [] [] [⟨6⟩] (PrimExpr.intImm 1)).2.2.2.2.2.2.2.1 hnb
  · exact (block_fields_set_once ⟨[], 0⟩
      "b" [] none none none false [] [] [] (PrimExpr.intImm 1)).2.2.2.2.2.2.2.2 hnb

theorem decomposeBinding_skip_block (e : PrimExpr) (n : String) (ivs : List IterVar)
    (r w : Option (List BufferRegion)) (p : Option PrimExpr) (nr : Bool)
    (body : List Stmt) (fs : List Frame) :
    axis.decomposeBinding (Frame.block n ivs r w p nr body :: fs) e
      = axis.decomposeBinding fs e := by
  cases e with
  | intImm v => rfl
  | loopVar v => rfl

/-- C3: inside an open block frame, `Remap "SR" [e0, e1]` (with both bindings
resolving against the enclosing loop nest) succeeds and appends exactly two
iteration variables at the end of the block's iteration-variable list, in
order: the first of spatial kind bound to `e0` over its recovered domain,
the second of reduce kind bound to `e1`; and every `Remap` call whose kinds
string and bindings array have different lengths fails with the
argument-shape error. -/
theorem remap_sr (st : Builder) (n : String) (ivs : List IterVar)
    (r w : Option (List BufferRegion)) (p : Option PrimExpr) (nr : Bool)
    (body : List Stmt) (fs : List Frame) (e0 e1 : PrimExpr)
    (d0 d1 : PrimExpr × PrimExpr)
    (hstack : st.stack = Frame.block n ivs r w p nr body :: fs)
    (h0 : axis.decomposeBinding st.stack e0 = some d0)
    (h1 : axis.decomposeBinding st.stack e1 = some d1) :
    (axis.Remap "SR" [e0, e1] st = Except.ok
      ⟨Frame.block n (ivs ++ [⟨⟨st.fresh, "v"⟩, d0, e0, IterKind.spatial⟩,
          ⟨⟨st.fresh + 1, "v"⟩, d1, e1, IterKind.reduce⟩]) r w p nr body :: fs,
        st.fresh + 2⟩)
    ∧ (∀ (kinds : String) (bindings : List PrimExpr) (st0 : Builder),
        kinds.toList.length ≠ bindings.length →
        axis.Remap kinds bindings st0 = Except.error BuilderError.argShape) := by
  constructor
  · have hst1 : axis.axisDef IterKind.spatial d0 e0 st = Except.ok
        ⟨Frame.block n (ivs ++ [⟨⟨st.fresh, "v"⟩, d0, e0, IterKind.spatial⟩])
            r w p nr body :: fs, st.fresh + 1⟩ := by
      rw [axis.axisDef, hstack]
    have h1' : axis.decomposeBinding
        (Frame.block n (ivs ++ [⟨⟨st.fresh, "v"⟩, d0, e0, IterKind.spatial⟩])
            r w p nr body :: fs) e1 = some d1 := by
      rw [decomposeBinding_skip_block]
      rw [hstack, decomposeBinding_skip_block] at h1
      exact h1
    have hst2 : axis.axisDef IterKind.reduce d1 e1
        ⟨Frame.block n (ivs ++ [⟨⟨st.fresh, "v"⟩, d0, e0, IterKind.spatial⟩])
            r w p nr body :: fs, st.fresh + 1⟩
        = Except.ok
          ⟨Frame.block n ((ivs ++ [⟨⟨st.fresh, "v"⟩, d0, e0, IterKind.spatial⟩])
              ++ [⟨⟨st.fresh + 1, "v"⟩, d1, e1, IterKind.reduce⟩]) r w p nr body :: fs,
            st.fresh + 1 + 1⟩ := by
      rw [axis.axisDef]
    rw [show axis.Remap "SR" [e0, e1] st = axis.remapGo ['S', 'R'] [e0, e1] st from rfl]
    rw [axis.remapGo]
    rw [show axis.charKind 'S' = some IterKind.spatial from rfl]
    rw [h0, axis.remapStep, hst1]
    simp only [axis.remapThen]
    rw [axis.remapGo]
    rw [show axis.charKind 'R' = some IterKind.reduce from rfl]
    dsimp only
    rw [h1', axis.remapStep, hst2]
    simp only [axis.remapThen]
    rw [axis.remapGo, List.append_assoc]
    rfl
  · intro kinds bindings st0 hne
    rw [axis.Remap, if_neg hne]

/-- Witness for C3: a block frame open above two serial loop frames; the two
bindings are the two loop variables; and a length-mismatched call fails. -/
theorem remap_sr_witness :
    (Builder.stack ⟨[Frame.block "b" [] none none none false [],
        Frame.forF [⟨ForKind.serial, ⟨10, "v"⟩, PrimExpr.intImm 0,
          PrimExpr.intImm 8, none⟩] [],
        Frame.forF [⟨ForKind.serial, ⟨11, "v"⟩, PrimExpr.intImm 0,
          PrimExpr.intImm 4, none⟩] [],
        Frame.primFunc []], 12⟩
      = Frame.block "b" [] none none none false []
        :: Frame.forF [⟨ForKind.serial, ⟨10, "v"⟩, PrimExpr.intImm 0,
            PrimExpr.intImm 8, none⟩] []
        :: Frame.forF [⟨ForKind.serial, ⟨11, "v"⟩, PrimExpr.intImm 0,
            PrimExpr.intImm 4, none⟩] []
        :: Frame.primFunc [] :: [])
    ∧ axis.decomposeBinding
        (Builder.stack ⟨[Frame.block "b" [] none none none false [],
          Frame.forF [⟨ForKind.serial, ⟨10, "v"⟩, PrimExpr.intImm 0,
            PrimExpr.intImm 8, none⟩] [],
          Frame.forF [⟨ForKind.serial, ⟨11, "v"⟩, PrimExpr.intImm 0,
            PrimExpr.intImm 4, none⟩] [],
          Frame.primFunc []], 12⟩)
        (PrimExpr.loopVar ⟨10, "v"⟩)
        = some (PrimExpr.intImm 0, PrimExpr.intImm 8)
    ∧ axis.decomposeBinding
        (Builder.stack ⟨[Frame.block "b" [] none none none false [],
          Frame.forF [⟨ForKind.serial, ⟨10, "v"⟩, PrimExpr.intImm 0,
            PrimExpr.intImm 8, none⟩] [],
          Frame.forF [⟨ForKind.serial, ⟨11, "v"⟩, PrimExpr.intImm 0,
            PrimExpr.intImm 4, none⟩] [],
          Frame.primFunc []], 12⟩)
        (PrimExpr.loopVar ⟨11, "v"⟩)
        = some (PrimExpr.intImm 0, PrimExpr.intImm 4)
    ∧ ((axis.Remap "SR" [PrimExpr.loopVar ⟨10, "v"⟩, PrimExpr.loopVar ⟨11, "v"⟩]
          ⟨[Frame.block "b" [] none none none false [],
            Frame.forF [⟨ForKind.serial, ⟨10, "v"⟩, PrimExpr.intImm 0,
              PrimExpr.intImm 8, none⟩] [],
            Frame.forF [⟨ForKind.serial, ⟨11, "v"⟩, PrimExpr.intImm 0,
              PrimExpr.intImm 4, none⟩] [],
            Frame.primFunc []], 12⟩
        = Except.ok
          ⟨Frame.block "b" ([] ++ [⟨⟨12, "v"⟩, (PrimExpr.intImm 0, PrimExpr.intImm 8),
              PrimExpr.loopVar ⟨10, "v"⟩, IterKind.spatial⟩,
            ⟨⟨12 + 1, "v"⟩, (PrimExpr.intImm 0, PrimExpr.intImm 4),
              PrimExpr.loopVar ⟨11, "v"⟩, IterKind.reduce⟩]) none none none false []
            :: Frame.forF [⟨ForKind.serial, ⟨10, "v"⟩, PrimExpr.intImm 0,
                PrimExpr.intImm 8, none⟩] []
            :: Frame.forF [⟨ForKind.serial, ⟨11, "v"⟩, PrimExpr.intImm 0,
                PrimExpr.intImm 4, none⟩] []
            :: Frame.primFunc [] :: [], 12 + 2⟩)
      ∧ (∀ (kinds : String) (bindings : List PrimExpr) (st0 : Builder),
          kinds.toList.length ≠ bindings.length →
          axis.Remap kinds bindings st0 = Except.error BuilderError.argShape)) :=
  ⟨rfl, rfl, rfl,
   remap_sr ⟨[Frame.block "b" [] none none none false [],
      Frame.forF [⟨ForKind.serial, ⟨10, "v"⟩, PrimExpr.intImm 0,
        PrimExpr.intImm 8, none⟩] [],
      Frame.forF [⟨ForKind.serial, ⟨11, "v"⟩, PrimExpr.intImm 0,
        PrimExpr.intImm 4, none⟩] [],
      Frame.primFunc []], 12⟩
     "b" [] none none none false []
     [Frame.forF [⟨ForKind.serial, ⟨10, "v"⟩, PrimExpr.intImm 0,
        PrimExpr.intImm 8, none⟩] [],
      Frame.forF [⟨ForKind.serial, ⟨11, "v"⟩, PrimExpr.intImm 0,
        PrimExpr.intImm 4, none⟩] [],
      Frame.primFunc []]
     (PrimExpr.loopVar ⟨10, "v"⟩) (PrimExpr.loopVar ⟨11, "v"⟩)
     (PrimExpr.intImm 0, PrimExpr.intImm 8) (PrimExpr.intImm 0, PrimExpr.intImm 4)
     rfl rfl rfl⟩

end TirBuilder

namespace TirDType

/-!
The `TVM_TIR_IR_BUILDER_DEF_DTYPE_CAST` helper family at the bottom of
`ir.h`.  The macro body is present in full in the source header, so the
helpers are embedded from the source: each expands to an inline pure
function taking an optional expression, returning `tvm::cast(dtype, e)` when
the expression is defined and a fresh `tvm::tir::Var("", dtype)` otherwise,
with `dtype` the fixed data type named by the macro invocation.  The TVM
runtime `DataType` value constructors (code, bits, lanes, with
`Bool() = UInt(1)`, `Handle() = (handle, 64, 1)`, `Void() = (handle, 0, 0)`)
are external collaborators embedded at their interface. -/

/-- The DLPack-style type-code of a TVM runtime DataType. -/
inductive DTypeCode where
  | int
  | uint
  | float
  | handle
deriving DecidableEq

/-- A TVM runtime DataType: type code, bit width, lane count. -/
structure DataType where
  code : DTypeCode
  bits : Nat
  lanes : Nat
deriving DecidableEq

/-- The `DataType::Int(bits, lanes)` constructor. -/
def DataType.Int (bits lanes : Nat) : DataType := ⟨DTypeCode.int, bits, lanes⟩

/-- The `DataType::UInt(bits, lanes)` constructor. -/
def DataType.UInt (bits lanes : Nat) : DataType := ⟨DTypeCode.uint, bits, lanes⟩

/-- The `DataType::Float(bits, lanes)` constructor. -/
def DataType.Float (bits lanes : Nat) : DataType := ⟨DTypeCode.float, bits, lanes⟩

/-- The `DataType::Bool()` constructor: one unsigned bit. -/
def DataType.Bool : DataType := DataType.UInt 1 1

/-- The `DataType::Handle()` constructor: a 64-bit handle. -/
def DataType.Handle : DataType := ⟨DTypeCode.handle, 64, 1⟩

/-- The `DataType::Void()` constructor: a handle with zero bits and lanes. -/
def DataType.Void : DataType := ⟨DTypeCode.handle, 0, 0⟩

/-- The fragment of TIR expressions the helpers build: variables (with a
name hint and a data type), cast nodes, and immediates. -/
inductive PrimExpr where
  | var (name : String) (dtype : DataType)
  | cast (dtype : DataType) (value : PrimExpr)
  | imm (dtype : DataType) (value : Int)
deriving DecidableEq

/-- The `tvm::cast(dtype, value)` operator, embedded at its interface: it
builds the cast of the value to the target data type. -/
def tvmCast (dtype : DataType) (value : PrimExpr) : PrimExpr :=
  PrimExpr.cast dtype value

/-- Expansion of `TVM_TIR_IR_BUILDER_DEF_DTYPE_CAST(Int8, DataType::Int(8))`. -/
def Int8 (expr : Option PrimExpr) : PrimExpr :=
  let dtype := DataType.Int 8 1
  match expr with
  | some e => tvmCast dtype e
  | none => PrimExpr.var "" dtype

/-- Expansion of the macro for `Int16`. -/
def Int16 (expr : Option PrimExpr) : PrimExpr :=
  let dtype := DataType.Int 16 1
  match expr with
  | some e => tvmCast dtype e
  | none => PrimExpr.var "" dtype

/-- Expansion of the macro for `Int32`. -/
def Int32 (expr : Option PrimExpr) : PrimExpr :=
  let dtype := DataType.Int 32 1
  match expr with
  | some e => tvmCast dtype e
  | none => PrimExpr.var "" dtype

/-- Expansion of the macro for `Int64`. -/
def Int64 (expr : Option PrimExpr) : PrimExpr :=
  let dtype := DataType.Int 64 1
  match expr with
  | some e => tvmCast dtype e
  | none => PrimExpr.var "" dtype

/-- Expansion of the macro for `UInt8`. -/
def UInt8 (expr : Option PrimExpr) : PrimExpr :=
  let dtype := DataType.UInt 8 1
  match expr with
  | some e => tvmCast dtype e
  | none => PrimExpr.var "" dtype

/-- Expansion of the macro for `UInt16`. -/
def UInt16 (expr : Option PrimExpr) : PrimExpr :=
  let dtype := DataType.UInt 16 1
  match expr with
  | some e => tvmCast dtype e
  | none => PrimExpr.var "" dtype

/-- Expansion of the macro for `UInt32`. -/
def UInt32 (expr : Option PrimExpr) : PrimExpr :=
  let dtype := DataType.UInt 32 1
  match expr with
  | some e => tvmCast dtype e
  | none => PrimExpr.var "" dtype

/-- Expansion of the macro for `UInt64`. -/
def UInt64 (expr : Option PrimExpr) : PrimExpr :=
  let dtype := DataType.UInt 64 1
  match expr with
  | some e => tvmCast dtype e
  | none => PrimExpr.var "" dtype

/-- Expansion of the macro for `Float8`. -/
def Float8 (expr : Option PrimExpr) : PrimExpr :=
  let dtype := DataType.Float 8 1
  match expr with
  | some e => tvmCast dtype e
  | none => PrimExpr.var "" dtype

/-- Expansion of the macro for `Float16`. -/
def Float16 (expr : Option PrimExpr) : PrimExpr :=
  let dtype := DataType.Float 16 1
  match expr with
  | some e => tvmCast dtype e
  | none => PrimExpr.var "" dtype

/-- Expansion of the macro for `Float32`. -/
def Float32 (expr : Option PrimExpr) : PrimExpr :=
  let dtype := DataType.Float 32 1
  match expr with
  | some e => tvmCast dtype e
  | none => PrimExpr.var "" dtype

/-- Expansion of the macro for `Float64`. -/
def Float64 (expr : Option PrimExpr) : PrimExpr :=
  let dtype := DataType.Float 64 1
  match expr with
  | some e => tvmCast dtype e
  | none => PrimExpr.var "" dtype

/-- Expansion of the macro for `Int32x4` (`DataType::Int(32, 4)`). -/
def Int32x4 (expr : Option PrimExpr) : PrimExpr :=
  let dtype := DataType.Int 32 4
  match expr with
  | some e => tvmCast dtype e
  | none => PrimExpr.var "" dtype

/-- Expansion of the macro for `Int32x8` (`DataType::Int(32, 8)`). -/
def Int32x8 (expr : Option PrimExpr) : PrimExpr :=
  let dtype := DataType.Int 32 8
  match expr with
  | some e => tvmCast dtype e
  | none => PrimExpr.var "" dtype

/-- Expansion of the macro for `Int32x16` (`DataType::Int(32, 16)`). -/
def Int32x16 (expr : Option PrimExpr) : PrimExpr :=
  let dtype := DataType.Int 32 16
  match expr with
  | some e => tvmCast dtype e
  | none => PrimExpr.var "" dtype

/-- Expansion of the macro for `Boolean` (`DataType::Bool()`). -/
def Boolean (expr : Option PrimExpr) : PrimExpr :=
  let dtype := DataType.Bool
  match expr with
  | some e => tvmCast dtype e
  | none => PrimExpr.var "" dtype

/-- Expansion of the macro for `Handle` (`DataType::Handle()`). -/
def Handle (expr : Option PrimExpr) : PrimExpr :=
  let dtype := DataType.Handle
  match expr with
  | some e => tvmCast dtype e
  | none => PrimExpr.var "" dtype

/-- Expansion of the macro for `Void` (`DataType::Void()`). -/
def Void (expr : Option PrimExpr) : PrimExpr :=
  let dtype := DataType.Void
  match expr with
  | some e => tvmCast dtype e
  | none => PrimExpr.var "" dtype

/-- C8: each macro-generated dtype-cast helper is a pure function of its
optional argument (embedded as such, with no builder state in scope): on
every defined expression it returns the cast of that expression to the
helper's fixed data type, with the declared type code, bit width and lane
count, and on no argument it returns a variable of that data type with an
empty name. -/
theorem dtype_cast_helpers (e : PrimExpr) :
    (Int8 (some e) = tvmCast ⟨DTypeCode.int, 8, 1⟩ e
      ∧ Int8 none = PrimExpr.var "" ⟨DTypeCode.int, 8, 1⟩)
    ∧ (Int16 (some e) = tvmCast ⟨DTypeCode.int, 16, 1⟩ e
      ∧ Int16 none = PrimExpr.var "" ⟨DTypeCode.int, 16, 1⟩)
    ∧ (Int32 (some e) = tvmCast ⟨DTypeCode.int, 32, 1⟩ e
      ∧ Int32 none = PrimExpr.var "" ⟨DTypeCode.int, 32, 1⟩)
    ∧ (Int64 (some e) = tvmCast ⟨DTypeCode.int, 64, 1⟩ e
      ∧ Int64 none = PrimExpr.var "" ⟨DTypeCode.int, 64, 1⟩)
    ∧ (UInt8 (some e) = tvmCast ⟨DTypeCode.uint, 8, 1⟩ e
      ∧ UInt8 none = PrimExpr.var "" ⟨DTypeCode.uint, 8, 1⟩)
    ∧ (UInt16 (some e) = tvmCast ⟨DTypeCode.uint, 16, 1⟩ e
      ∧ UInt16 none = PrimExpr.var "" ⟨DTypeCode.uint, 16, 1⟩)
    ∧ (UInt32 (some e) = tvmCast ⟨DTypeCode.uint, 32, 1⟩ e
      ∧ UInt32 none = PrimExpr.var "" ⟨DTypeCode.uint, 32, 1⟩)
    ∧ (UInt64 (some e) = tvmCast ⟨DTypeCode.uint, 64, 1⟩ e
      ∧ UInt64 none = PrimExpr.var "" ⟨DTypeCode.uint, 64, 1⟩)
    ∧ (Float8 (some e) = tvmCast ⟨DTypeCode.float, 8, 1⟩ e
      ∧ Float8 none = PrimExpr.var "" ⟨DTypeCode.float, 8, 1⟩)
    ∧ (Float16 (some e) = tvmCast ⟨DTypeCode.float, 16, 1⟩ e
      ∧ Float16 none = PrimExpr.var "" ⟨DTypeCode.float, 16, 1⟩)
    ∧ (Float32 (some e) = tvmCast ⟨DTypeCode.float, 32, 1⟩ e
      ∧ Float32 none = PrimExpr.var "" ⟨DTypeCode.float, 32, 1⟩)
    ∧ (Float64 (some e) = tvmCast ⟨DTypeCode.float, 64, 1⟩ e
      ∧ Float64 none = PrimExpr.var "" ⟨DTypeCode.float, 64, 1⟩)
    ∧ (Int32x4 (some e) = tvmCast ⟨DTypeCode.int, 32, 4⟩ e
      ∧ Int32x4 none = PrimExpr.var "" ⟨DTypeCode.int, 32, 4⟩)
    ∧ (Int32x8 (some e) = tvmCast ⟨DTypeCode.int, 32, 8⟩ e
      ∧ Int32x8 none = PrimExpr.var "" ⟨DTypeCode.int, 32, 8⟩)
    ∧ (Int32x16 (some e) = tvmCast ⟨DTypeCode.int, 32, 16⟩ e
      ∧ Int32x16 none = PrimExpr.var "" ⟨DTypeCode.int, 32, 16⟩)
    ∧ (Boolean (some e) = tvmCast ⟨DTypeCode.uint, 1, 1⟩ e
      ∧ Boolean none = PrimExpr.var "" ⟨DTypeCode.uint, 1, 1⟩)
    ∧ (Handle (some e) = tvmCast ⟨DTypeCode.handle, 64, 1⟩ e
      ∧ Handle none = PrimExpr.var "" ⟨DTypeCode.handle, 64, 1⟩)
    ∧ (Void (some e) = tvmCast ⟨DTypeCode.handle, 0, 0⟩ e
      ∧ Void none = PrimExpr.var "" ⟨DTypeCode.handle, 0, 0⟩) :=
  ⟨⟨rfl, rfl⟩, ⟨rfl, rfl⟩, ⟨rfl, rfl⟩, ⟨rfl, rfl⟩, ⟨rfl, rfl⟩, ⟨rfl, rfl⟩,
   ⟨rfl, rfl⟩, ⟨rfl, rfl⟩, ⟨rfl, rfl⟩, ⟨rfl, rfl⟩, ⟨rfl, rfl⟩, ⟨rfl, rfl⟩,
   ⟨rfl, rfl⟩, ⟨rfl, rfl⟩, ⟨rfl, rfl⟩, ⟨rfl, rfl⟩, ⟨rfl, rfl⟩, ⟨rfl, rfl⟩⟩

end TirDType
